import Mathlib

/-!
# Formal model of the Spyfall backend game engine

A shallow embedding of `backend/models.py` and `backend/timer.py`.

Conventions used throughout:
* Python `float` wall-clock values (`time.time()`) are modelled as `ℚ`;
  every operation that calls `time.time()` takes the current instant `now`
  as an explicit argument.
* Python `Optional[X]` is `Option X`; Python truthiness of an optional
  float (`if not self.started_at:`) is modelled faithfully: `None` and
  `0.0` are both falsy.
* Python `dict[str, bool]` (insertion ordered, unique keys) is modelled
  as an association list updated by `dictInsert`, which overwrites in
  place or appends a fresh key at the end, exactly like a Python dict.
* `random.shuffle` / `random.choice` are modelled by oracle arguments:
  an index-permutation oracle (`permuteBy`) and index oracles reduced
  modulo the list length.  Any concrete oracle value is normalised to a
  valid choice, so the set of modelled behaviours coincides with the set
  of behaviours of the randomised source.
* Methods that mutate `self` and return a `bool` become functions
  `Game → ... → Bool × Game`.
-/

namespace Spyfall

/-- `GameStatus` enum from `models.py`. -/
inductive GameStatus where
  | WAITING
  | IN_PROGRESS
  | VOTING
  | END_OF_ROUND_VOTING
  | FINISHED
deriving DecidableEq, Repr

/-- `PlayerRole` enum from `models.py`. -/
inductive PlayerRole where
  | SPY
  | INNOCENT
deriving DecidableEq, Repr

/-- `GameEndReason` enum from `models.py`. -/
inductive GameEndReason where
  | TIME_EXPIRED
  | SPY_ACCUSED
  | INNOCENT_ACCUSED
  | SPY_GUESSED_LOCATION
  | SPY_FAILED_GUESS
deriving DecidableEq, Repr

/-- `TimerStatus` enum from `timer.py`. -/
inductive TimerStatus where
  | NOT_STARTED
  | RUNNING
  | PAUSED
  | EXPIRED
deriving DecidableEq, Repr

/-- `TimerState` dataclass from `timer.py`. -/
structure TimerState where
  duration : ℚ
  started_at : Option ℚ := none
  accumulated_paused_time : ℚ := 0
  is_running : Bool := false
  last_pause_time : Option ℚ := none
  status : TimerStatus := TimerStatus.NOT_STARTED
deriving DecidableEq, Repr

/-- Python truthiness of an `Optional[float]`: `None` and `0.0` are falsy. -/
def optFloatTruthy : Option ℚ → Bool
  | none => false
  | some x => x ≠ 0

namespace TimerState

/-- `TimerState.get_elapsed_time` from `timer.py` (reads the wall clock). -/
def get_elapsed_time (s : TimerState) (now : ℚ) : ℚ :=
  if ¬ optFloatTruthy s.started_at then 0
  else
    let st := s.started_at.getD 0
    if s.is_running then
      (now - st) - s.accumulated_paused_time
    else
      if optFloatTruthy s.last_pause_time then
        (s.last_pause_time.getD 0 - st) - s.accumulated_paused_time
      else
        (now - st) - s.accumulated_paused_time

/-- `TimerState.get_remaining_time` from `timer.py`; returns the remaining
time together with the possibly updated state (lazy expiry detection
mutates `status`). -/
def get_remaining_time (s : TimerState) (now : ℚ) : ℚ × TimerState :=
  if s.status = TimerStatus.EXPIRED then (0, s)
  else
    let elapsed := s.get_elapsed_time now
    let remaining := max 0 (s.duration - elapsed)
    if remaining ≤ 0 then (remaining, { s with status := TimerStatus.EXPIRED })
    else (remaining, s)

end TimerState

/-- `GameTimer` class from `timer.py`: a wrapper holding a `TimerState`. -/
structure GameTimer where
  state : TimerState
deriving DecidableEq, Repr

namespace GameTimer

/-- `GameTimer.__init__` with the given duration. -/
def new (duration : ℚ := 480) : GameTimer :=
  { state := { duration := duration } }

/-- `GameTimer.start` from `timer.py`. -/
def start (t : GameTimer) (now : ℚ) : Bool × GameTimer :=
  if t.state.status ≠ TimerStatus.NOT_STARTED then (false, t)
  else
    (true, { state := { t.state with
      started_at := some now
      is_running := true
      status := TimerStatus.RUNNING } })

/-- `GameTimer.pause` from `timer.py`. -/
def pause (t : GameTimer) (now : ℚ) : Bool × GameTimer :=
  if ¬ t.state.is_running ∨ t.state.status = TimerStatus.EXPIRED then (false, t)
  else
    (true, { state := { t.state with
      last_pause_time := some now
      is_running := false
      status := TimerStatus.PAUSED } })

/-- `GameTimer.resume` from `timer.py`. -/
def resume (t : GameTimer) (now : ℚ) : Bool × GameTimer :=
  if t.state.is_running ∨ t.state.status ≠ TimerStatus.PAUSED then (false, t)
  else
    let s := t.state
    let s :=
      if optFloatTruthy s.last_pause_time ∧ optFloatTruthy s.started_at then
        { s with accumulated_paused_time :=
            s.accumulated_paused_time + (now - s.last_pause_time.getD 0) }
      else s
    (true, { state := { s with
      is_running := true
      status := TimerStatus.RUNNING
      last_pause_time := none } })

/-- `GameTimer.is_expired` from `timer.py`; also returns the (lazily
updated) timer. -/
def is_expired (t : GameTimer) (now : ℚ) : Bool × GameTimer :=
  let (remaining, s) := t.state.get_remaining_time now
  (remaining ≤ 0, { state := s })

end GameTimer

/-- `Player` dataclass from `models.py`. -/
structure Player where
  id : String
  name : String
  is_bot : Bool := false
  is_connected : Bool := true
  role : Option PlayerRole := none
  location_role : Option String := none
  points : Int := 0
  has_accused_this_round : Bool := false
deriving DecidableEq, Repr

/-- `Location` dataclass from `models.py`. -/
structure Location where
  name : String
  roles : List String
deriving DecidableEq, Repr

/-- `Message` dataclass from `models.py`.  The Python id string
`f"{time.time()}_{from_id}"` is modelled as the pair of its two parts. -/
structure Message where
  id : ℚ × String
  type : String
  from_id : String
  to_id : Option String
  content : String
  timestamp : ℚ
deriving DecidableEq, Repr

/-- `Accusation` dataclass from `models.py`.  The `votes` Python dict is
an insertion-ordered association list with unique keys. -/
structure Accusation where
  accuser_id : String
  accused_id : String
  votes : List (String × Bool) := []
  timestamp : ℚ
  is_active : Bool := true
deriving DecidableEq, Repr

/-- Python dict entry write `d[k] = v`: overwrite the value at an existing
key in place, otherwise append the new key at the end. -/
def dictInsert (d : List (String × Bool)) (k : String) (v : Bool) :
    List (String × Bool) :=
  if d.any (fun kv => kv.1 = k) then
    d.map (fun kv => if kv.1 = k then (k, v) else kv)
  else
    d ++ [(k, v)]

/-- Python dict read `d.get(k)`. -/
def dictLookup (d : List (String × Bool)) (k : String) : Option Bool :=
  (d.find? (fun kv => kv.1 = k)).map (·.2)

/-- Mutate the first element of a list satisfying `p` (Python's
`next((x for x in l if p x), None)` followed by an in-place mutation). -/
def modifyFirst (p : α → Bool) (f : α → α) : List α → List α
  | [] => []
  | a :: rest => if p a then f a :: rest else a :: modifyFirst p f rest

/-- Mutate the last accusation in the list whose `is_active` flag is set;
this is the object Python's `current_accusation` property returns
(`active_accusations[-1]`), mutated through the returned reference. -/
def modifyLastActive (f : Accusation → Accusation) (l : List Accusation) :
    List Accusation :=
  (go l.reverse).reverse
where
  /-- Mutate the first active accusation of the reversed list. -/
  go : List Accusation → List Accusation
    | [] => []
    | a :: rest => if a.is_active then f a :: rest else a :: go rest

/-- `self.current_accusation.is_active = False`, guarded by
`if self.current_accusation:` — a no-op when no accusation is active. -/
def deactivateLastActive (l : List Accusation) : List Accusation :=
  modifyLastActive (fun a => { a with is_active := false }) l

/-- Number of live accusations in a history. -/
def activeCount (l : List Accusation) : Nat :=
  (l.filter (fun a => a.is_active)).length

/-- `unanimous_guilty = all(votes) and len(votes) > 0` from
`Game._resolve_accusation` (`votes` being the dict's value list). -/
def unanimousGuilty (votes : List (String × Bool)) : Bool :=
  (votes.map (·.2)).all (fun v => v) && decide (0 < votes.length)

/-- `random.shuffle` oracle: reorder `l` by a list of indices when that
list is a permutation of `0..l.length-1`; normalise any other oracle
value to the identity shuffle (also a legitimate shuffle outcome). -/
def permuteBy (idxs : List Nat) (l : List α) : List α :=
  if idxs.length = l.length ∧ (List.range l.length).all (fun i => idxs.contains i) then
    idxs.filterMap (fun i => l[i]?)
  else l

/-- `Game` dataclass from `models.py`. -/
structure Game where
  id : String
  players : List Player := []
  status : GameStatus := GameStatus.WAITING
  current_turn : Option String := none
  location : Option Location := none
  spy_id : Option String := none
  created_at : ℚ
  messages : List Message := []
  accusations : List Accusation := []
  clock_stopped : Bool := false
  clock_stopped_by : Option String := none
  winner : Option String := none
  end_reason : Option GameEndReason := none
  last_questioned_by : Option String := none
  qa_rounds_completed : Nat := 0
  max_qa_rounds : Nat := 3
  timer : GameTimer := GameTimer.new 480
deriving DecidableEq, Repr

/-- `LOCATIONS` table from `models.py` (names and role pools). -/
def LOCATIONS : List Location := [
  ⟨"Airplane", ["Pilot", "Flight Attendant", "Passenger", "Air Marshal", "Mechanic", "Tourist", "Businessman"]⟩,
  ⟨"Amusement Park", ["Ride Operator", "Parent", "Food Vendor", "Teenager", "Janitor", "Security Guard", "Mascot"]⟩,
  ⟨"Bank", ["Teller", "Security Guard", "Manager", "Customer", "Robber", "Consultant", "Armored Car Driver"]⟩,
  ⟨"Beach", ["Lifeguard", "Surfer", "Photographer", "Tourist", "Ice Cream Vendor", "Kite Surfer", "Beach Volleyball Player"]⟩,
  ⟨"Carnival", ["Ring Toss Operator", "Visitor", "Fire Eater", "Fortune Teller", "Bouncer", "Candy Seller", "Clown"]⟩,
  ⟨"Casino", ["Dealer", "Gambler", "Security", "Cocktail Waitress", "Pit Boss", "Card Counter", "Slot Machine Addict"]⟩,
  ⟨"Circus Tent", ["Acrobat", "Animal Trainer", "Magician", "Fire Eater", "Clown", "Juggler", "Ringmaster"]⟩,
  ⟨"Corporate Party", ["CEO", "Manager", "Employee", "Secretary", "Security", "Bartender", "Caterer"]⟩,
  ⟨"Crusader Army", ["Knight", "Archer", "Priest", "Peasant", "Squire", "Cook", "Prisoner"]⟩,
  ⟨"Day Spa", ["Masseuse", "Customer", "Dermatologist", "Beautician", "Receptionist", "Aromatherapist", "Manicurist"]⟩,
  ⟨"Embassy", ["Ambassador", "Security Officer", "Tourist", "Refugee", "Diplomat", "Government Official", "Secretary"]⟩,
  ⟨"Hospital", ["Doctor", "Nurse", "Patient", "Surgeon", "Anesthesiologist", "Intern", "Therapist"]⟩,
  ⟨"Hotel", ["Guest", "Bellhop", "Manager", "Housekeeper", "Bartender", "Doorman", "Concierge"]⟩,
  ⟨"Military Base", ["Soldier", "Medic", "Engineer", "Sniper", "Officer", "Tank Operator", "Radioman"]⟩,
  ⟨"Movie Studio", ["Director", "Actor", "Cameraman", "Producer", "Sound Engineer", "Stuntman", "Make-up Artist"]⟩,
  ⟨"Nightclub", ["DJ", "Bouncer", "Dancer", "Bartender", "VIP", "Party Girl", "Waiter"]⟩,
  ⟨"Ocean Liner", ["Captain", "Bartender", "Musician", "Wealthy Passenger", "Poor Passenger", "Waiter", "Lifeguard"]⟩,
  ⟨"Passenger Train", ["Mechanic", "Border Patrol", "Passenger", "Restaurant Chef", "Engineer", "Stoker", "Conductor"]⟩,
  ⟨"Pirate Ship", ["Captain", "Mate", "Cabin Boy", "Gunner", "Cook", "Prisoner", "Sailor"]⟩,
  ⟨"Police Station", ["Detective", "Lawyer", "Journalist", "Criminalist", "Archivist", "Patrol Officer", "Criminal"]⟩,
  ⟨"Polar Station", ["Medic", "Expedition Leader", "Biologist", "Radioman", "Hydrologist", "Meteorologist", "Geologist"]⟩,
  ⟨"Restaurant", ["Musician", "Customer", "Bouncer", "Hostess", "Head Chef", "Food Critic", "Waiter"]⟩,
  ⟨"School", ["Gym Teacher", "Student", "Principal", "Security Guard", "Janitor", "Lunch Lady", "Maintenance Man"]⟩,
  ⟨"Service Station", ["Manager", "Tire Specialist", "Biker", "Car Owner", "Car Wash Operator", "Electrician", "Auto Mechanic"]⟩,
  ⟨"Space Station", ["Engineer", "Alien", "Space Tourist", "Pilot", "Commander", "Scientist", "Doctor"]⟩,
  ⟨"Submarine", ["Cook", "Commander", "Sonar Technician", "Electronics Specialist", "Sailor", "Radioman", "Navigator"]⟩,
  ⟨"Supermarket", ["Customer", "Cashier", "Butcher", "Janitor", "Security Guard", "Food Sample Demonstrator", "Shelf Stocker"]⟩,
  ⟨"Theater", ["Coat Check Lady", "Prompter", "Cashier", "Director", "Actor", "Crewman", "Audience Member"]⟩,
  ⟨"University", ["Graduate Student", "Professor", "Dean", "Psychologist", "Maintenance Man", "Student", "Janitor"]⟩,
  ⟨"Zoo", ["Zookeeper", "Visitor", "Photographer", "Child", "Veterinarian", "Tour Guide", "Security Guard"]⟩]

namespace Game

/-- `Game(id=...)` construction with dataclass defaults
(`created_at=time.time()`). -/
def new (id : String) (now : ℚ) : Game :=
  { id := id, created_at := now }

/-- `Game.current_accusation` property: the most recent active accusation. -/
def current_accusation (g : Game) : Option Accusation :=
  (g.accusations.filter (fun a => a.is_active)).getLast?

/-- `Game._end_game` from `models.py`. -/
def end_game (g : Game) (reason : GameEndReason) (winner : String) : Game :=
  { g with
    status := GameStatus.FINISHED
    end_reason := some reason
    winner := some winner }

/-- `Game.add_player` from `models.py`. -/
def add_player (g : Game) (player : Player) : Bool × Game :=
  if 8 ≤ g.players.length then (false, g)
  else if g.status ≠ GameStatus.WAITING then (false, g)
  else if g.players.any (fun p => p.id = player.id) then (false, g)
  else (true, { g with players := g.players ++ [player] })

/-- `Game._advance_turn` from `models.py`.  The guard
`not self.players or not self.current_turn` is a Python truthiness
test: it also fires when `current_turn` is the empty string. -/
def advance_turn (g : Game) : Game :=
  if g.players.isEmpty ∨ g.current_turn = none ∨ g.current_turn = some "" then g
  else
    let current_index := (g.players.findIdx? (fun p => some p.id = g.current_turn)).getD 0
    let next_index := (current_index + 1) % g.players.length
    match g.players[next_index]? with
    | some p => { g with current_turn := some p.id }
    | none => g

/-- `Game.remove_player` from `models.py`. -/
def remove_player (g : Game) (player_id : String) : Bool × Game :=
  let g := { g with players := g.players.filter (fun p => p.id ≠ player_id) }
  let g := if g.current_turn = some player_id then g.advance_turn else g
  let g :=
    if g.spy_id = some player_id ∧ g.status = GameStatus.IN_PROGRESS then
      g.end_game GameEndReason.SPY_ACCUSED "innocents"
    else g
  (true, g)

/-- Python `str.lower()`. -/
def strLower (s : String) : String := s.map Char.toLower

/-- `Game._assign_roles` from `models.py`.  `spyO`, `locO`, `rolesO` and
`fallbackO` are the randomness oracles for `random.choice(self.players)`,
`random.choice(LOCATIONS)`, `random.shuffle(available_roles)` and the
overflow `random.choice(self.location.roles)` calls respectively. -/
def assign_roles (g : Game) (spyO locO : Nat) (rolesO fallbackO : List Nat) : Game :=
  match g.players[spyO % g.players.length]? with
  | none => g
  | some spyPlayer =>
    let spyId := spyPlayer.id
    let players := g.players.set (spyO % g.players.length)
      { spyPlayer with role := some PlayerRole.SPY }
    let loc := (LOCATIONS[locO % LOCATIONS.length]?).getD ⟨"", []⟩
    let available := permuteBy rolesO loc.roles
    let step : List String × List Nat × List Player → Player →
        List String × List Nat × List Player :=
      fun (avail, fbs, acc) p =>
        if p.id ≠ spyId then
          if avail.isEmpty then
            let r := loc.roles[fbs.headD 0 % loc.roles.length]?
            (avail, fbs.tail,
              acc ++ [{ p with role := some PlayerRole.INNOCENT, location_role := r }])
          else
            (avail.dropLast, fbs,
              acc ++ [{ p with role := some PlayerRole.INNOCENT, location_role := avail.getLast? }])
        else (avail, fbs, acc ++ [p])
    let res := players.foldl step (available, fallbackO, [])
    { g with spy_id := some spyId, location := some loc, players := res.2.2 }

/-- `Game.start_game` from `models.py` (oracle arguments as in
`assign_roles`; `orderO` feeds `random.shuffle(self.players)`). -/
def start_game (g : Game) (random_order : Bool) (orderO : List Nat)
    (spyO locO : Nat) (rolesO fallbackO : List Nat) (now : ℚ) : Bool × Game :=
  if g.players.length < 3 then (false, g)
  else if g.status ≠ GameStatus.WAITING then (false, g)
  else
    let g := if random_order then { g with players := permuteBy orderO g.players } else g
    let g := g.assign_roles spyO locO rolesO fallbackO
    let g :=
      match g.players with
      | [] => g
      | p :: _ => { g with current_turn := some p.id }
    let g := { g with status := GameStatus.IN_PROGRESS }
    (true, { g with timer := (g.timer.start now).2 })

/-- `Game.ask_question` from `models.py`. -/
def ask_question (g : Game) (from_player_id to_player_id content : String)
    (now : ℚ) : Bool × Game :=
  if g.status ≠ GameStatus.IN_PROGRESS ∨ g.clock_stopped then (false, g)
  else if g.current_turn ≠ some from_player_id then (false, g)
  else if g.last_questioned_by = some to_player_id then (false, g)
  else
    let message : Message :=
      { id := (now, from_player_id), type := "question", from_id := from_player_id,
        to_id := some to_player_id, content := content, timestamp := now }
    (true, { g with
      messages := g.messages ++ [message]
      current_turn := some to_player_id
      last_questioned_by := some from_player_id })

/-- `Game.give_answer` from `models.py`. -/
def give_answer (g : Game) (from_player_id content : String) (now : ℚ) :
    Bool × Game :=
  if g.status ≠ GameStatus.IN_PROGRESS ∨ g.clock_stopped then (false, g)
  else if g.current_turn ≠ some from_player_id then (false, g)
  else
    let message : Message :=
      { id := (now, from_player_id), type := "answer", from_id := from_player_id,
        to_id := g.last_questioned_by, content := content, timestamp := now }
    (true, { g with
      messages := g.messages ++ [message]
      qa_rounds_completed := g.qa_rounds_completed + 1 })

/-- `Game.stop_clock_for_accusation` from `models.py`. -/
def stop_clock_for_accusation (g : Game) (accuser_id accused_id : String)
    (now : ℚ) : Bool × Game :=
  if g.status ≠ GameStatus.IN_PROGRESS ∨ g.clock_stopped then (false, g)
  else
    match g.players.find? (fun p => p.id = accuser_id) with
    | none => (false, g)
    | some accuser =>
      if accuser.has_accused_this_round then (false, g)
      else
        let accusation : Accusation :=
          { accuser_id := accuser_id, accused_id := accused_id, timestamp := now }
        (true, { g with
          timer := (g.timer.pause now).2
          clock_stopped := true
          clock_stopped_by := some accuser_id
          status := GameStatus.VOTING
          accusations := g.accusations ++ [accusation]
          players := (modifyFirst (fun p => p.id = accuser_id)
            (fun p => { p with has_accused_this_round := true }) g.players) })

/-- `Game._resolve_accusation` from `models.py`. -/
def resolve_accusation (g : Game) (now : ℚ) : Game :=
  match g.current_accusation with
  | none => g
  | some acc =>
    if unanimousGuilty acc.votes then
      match g.players.find? (fun p => p.id = acc.accused_id) with
      | none => g
      | some accused_player =>
        if accused_player.role = some PlayerRole.SPY then
          let g := g.end_game GameEndReason.SPY_ACCUSED "innocents"
          { g with players := (g.players.map (fun p =>
              if p.role = some PlayerRole.INNOCENT then
                if p.id = acc.accuser_id then { p with points := p.points + 2 }
                else { p with points := p.points + 1 }
              else p)) }
        else
          let g := g.end_game GameEndReason.INNOCENT_ACCUSED "spy"
          { g with players := (modifyFirst (fun p => some p.id = g.spy_id)
              (fun p => { p with points := p.points + 4 }) g.players) }
    else
      { g with
        timer := (g.timer.resume now).2
        clock_stopped := false
        clock_stopped_by := none
        status := GameStatus.IN_PROGRESS
        accusations := deactivateLastActive g.accusations }

/-- `Game.vote_on_accusation` from `models.py`.  The Python body writes
through the `current_accusation` property (`...votes[voter_id] = vote`)
and then re-reads it; the re-read returns the same, still active,
accusation, so the re-read vote dict is `dictInsert acc.votes voter_id
vote` (see `current_accusation_modifyLastActive`). -/
def vote_on_accusation (g : Game) (voter_id : String) (vote : Bool) (now : ℚ) :
    Bool × Game :=
  if g.status ≠ GameStatus.VOTING then (false, g)
  else
    match g.current_accusation with
    | none => (false, g)
    | some acc =>
      if voter_id = acc.accused_id then (false, g)
      else
        let g1 := { g with accusations := (modifyLastActive
          (fun a => { a with votes := dictInsert a.votes voter_id vote }) g.accusations) }
        let votes' := dictInsert acc.votes voter_id vote
        let eligible_voters := (g1.players.filter (fun p => p.id ≠ acc.accused_id)).map (·.id)
        if votes'.length = eligible_voters.length then (true, g1.resolve_accusation now)
        else (true, g1)

/-- `Game.spy_guess_location` from `models.py`. -/
def spy_guess_location (g : Game) (spy_id guessed_location : String) :
    Bool × Game :=
  if g.status ≠ GameStatus.IN_PROGRESS then (false, g)
  else if some spy_id ≠ g.spy_id then (false, g)
  else
    match g.location with
    | none => (false, g)
    | some loc =>
      if g.clock_stopped then (false, g)
      else if strLower guessed_location = strLower loc.name then
        let g := g.end_game GameEndReason.SPY_GUESSED_LOCATION "spy"
        (true, { g with players := (modifyFirst (fun p => some p.id = g.spy_id)
            (fun p => { p with points := p.points + 4 }) g.players) })
      else
        let g := g.end_game GameEndReason.SPY_FAILED_GUESS "innocents"
        (true, { g with players := (g.players.map (fun p =>
            if p.role = some PlayerRole.INNOCENT then { p with points := p.points + 1 }
            else p)) })

/-- `Game._start_end_of_round_voting` from `models.py`. -/
def start_end_of_round_voting (g : Game) : Game :=
  let g := { g with accusations := deactivateLastActive g.accusations }
  let g := { g with players := (g.players.map (fun (p : Player) => { p with has_accused_this_round := false })) }
  let g := { g with current_turn := (g.players.head?).map (fun (p : Player) => p.id) }
  { g with
    status := GameStatus.END_OF_ROUND_VOTING
    clock_stopped := true
    clock_stopped_by := some "time_expired" }

/-- `Game.check_time_expired` from `models.py`
(`_handle_time_expiry` just delegates to `_start_end_of_round_voting`). -/
def check_time_expired (g : Game) (now : ℚ) : Bool × Game :=
  if g.status ≠ GameStatus.IN_PROGRESS ∨ g.clock_stopped then (false, g)
  else
    let (expired, t') := g.timer.is_expired now
    let g := { g with timer := t' }
    if expired then (true, g.start_end_of_round_voting) else (false, g)

/-- `Game.make_end_of_round_accusation` from `models.py`. -/
def make_end_of_round_accusation (g : Game) (accuser_id accused_id : String)
    (now : ℚ) : Bool × Game :=
  if g.status ≠ GameStatus.END_OF_ROUND_VOTING then (false, g)
  else if some accuser_id ≠ g.current_turn then (false, g)
  else if accuser_id = accused_id then (false, g)
  else
    match g.players.find? (fun p => p.id = accuser_id) with
    | none => (false, g)
    | some accuser =>
      if accuser.has_accused_this_round then (false, g)
      else
        let accusation : Accusation :=
          { accuser_id := accuser_id, accused_id := accused_id, votes := [],
            timestamp := now, is_active := true }
        (true, { g with
          accusations := g.accusations ++ [accusation]
          players := (modifyFirst (fun p => p.id = accuser_id)
            (fun p => { p with has_accused_this_round := true }) g.players) })

/-- The `for i in range(1, len(self.players))` search of
`Game._move_to_next_end_of_round_accuser`: the first player after
`current_index` in wrapping order whose accusation flag is clear. -/
def findNextAccuser (players : List Player) (current_index : Nat) :
    Option Player :=
  (List.range' 1 (players.length - 1)).findSome? (fun i =>
    match players[(current_index + i) % players.length]? with
    | some p => if p.has_accused_this_round then none else some p
    | none => none)

/-- `Game._move_to_next_end_of_round_accuser` from `models.py`. -/
def move_to_next_end_of_round_accuser (g : Game) : Game :=
  let g := { g with accusations := deactivateLastActive g.accusations }
  let current_index := (g.players.findIdx? (fun p => some p.id = g.current_turn)).getD 0
  match findNextAccuser g.players current_index with
  | some p => { g with current_turn := some p.id }
  | none =>
    let g := g.end_game GameEndReason.TIME_EXPIRED "spy"
    { g with players := (modifyFirst (fun p => some p.id = g.spy_id)
        (fun p => { p with points := p.points + 2 }) g.players) }

/-- `Game._resolve_end_of_round_accusation` from `models.py`. -/
def resolve_end_of_round_accusation (g : Game) : Game :=
  match g.current_accusation with
  | none => g
  | some acc =>
    if unanimousGuilty acc.votes then
      let accusedIsSpy : Bool := (g.players.find? (fun p => p.id = acc.accused_id)).any
        (fun accused => accused.role = some PlayerRole.SPY)
      if accusedIsSpy then
        let g := g.end_game GameEndReason.SPY_ACCUSED "innocents"
        { g with players := (g.players.map (fun p =>
            let p := if p.role = some PlayerRole.INNOCENT then
                { p with points := p.points + 1 } else p
            if p.id = acc.accuser_id then { p with points := p.points + 1 } else p)) }
      else
        let g := g.end_game GameEndReason.INNOCENT_ACCUSED "spy"
        { g with players := (modifyFirst (fun p => some p.id = g.spy_id)
            (fun p => { p with points := p.points + 4 }) g.players) }
    else
      g.move_to_next_end_of_round_accuser

/-- `Game.vote_on_end_of_round_accusation` from `models.py`.  Python binds
`accusation = self.current_accusation` once and mutates that object, so
the vote count it compares is `dictInsert acc.votes voter_id vote`. -/
def vote_on_end_of_round_accusation (g : Game) (voter_id : String)
    (vote : Bool) : Bool × Game :=
  if g.status ≠ GameStatus.END_OF_ROUND_VOTING then (false, g)
  else
    match g.current_accusation with
    | none => (false, g)
    | some acc =>
      if voter_id = acc.accused_id then (false, g)
      else if (g.players.find? (fun p => p.id = voter_id)).isNone then (false, g)
      else
        let g1 := { g with accusations := (modifyLastActive
          (fun a => { a with votes := dictInsert a.votes voter_id vote }) g.accusations) }
        let votes' := dictInsert acc.votes voter_id vote
        let eligible_voters := (g1.players.filter (fun p => p.id ≠ acc.accused_id)).map (·.id)
        if votes'.length = eligible_voters.length then
          (true, g1.resolve_end_of_round_accusation)
        else (true, g1)

end Game

/-- One call into the `Game` engine, with its wall-clock instant and
randomness oracles where the source reads the clock or the RNG. -/
inductive Action where
  | addPlayer (p : Player)
  | removePlayer (pid : String)
  | startGame (randomOrder : Bool) (orderO : List Nat) (spyO locO : Nat)
      (rolesO fallbackO : List Nat) (now : ℚ)
  | askQuestion (fromP toP content : String) (now : ℚ)
  | giveAnswer (fromP content : String) (now : ℚ)
  | stopClockForAccusation (accuser accused : String) (now : ℚ)
  | voteOnAccusation (voter : String) (vote : Bool) (now : ℚ)
  | spyGuessLocation (spy guess : String)
  | checkTimeExpired (now : ℚ)
  | makeEndOfRoundAccusation (accuser accused : String) (now : ℚ)
  | voteOnEndOfRoundAccusation (voter : String) (vote : Bool)
deriving DecidableEq, Repr

/-- Dispatch an `Action` to the corresponding `Game` operation. -/
def Action.apply (g : Game) : Action → Bool × Game
  | addPlayer p => g.add_player p
  | removePlayer pid => g.remove_player pid
  | startGame ro orderO spyO locO rolesO fallbackO now =>
      g.start_game ro orderO spyO locO rolesO fallbackO now
  | askQuestion f t c now => g.ask_question f t c now
  | giveAnswer f c now => g.give_answer f c now
  | stopClockForAccusation a b now => g.stop_clock_for_accusation a b now
  | voteOnAccusation v b now => g.vote_on_accusation v b now
  | spyGuessLocation s l => g.spy_guess_location s l
  | checkTimeExpired now => g.check_time_expired now
  | makeEndOfRoundAccusation a b now => g.make_end_of_round_accusation a b now
  | voteOnEndOfRoundAccusation v b => g.vote_on_end_of_round_accusation v b

/-- Run a sequence of actions, keeping the resulting states. -/
def runActions (g : Game) (acts : List Action) : Game :=
  acts.foldl (fun g a => (Action.apply g a).2) g

/-- Whether an action is a `remove_player` call. -/
def Action.isRemovePlayer : Action → Bool
  | removePlayer _ => true
  | _ => false

/-- An action's player-id arguments are well formed in state `g`:
the target of a question is an actual player, and a joining player has
a non-empty id (Python truthiness makes an empty id indistinguishable
from an unset turn in `_advance_turn`).  This is the discipline the
frontend and the bot scheduler in `main.py` follow; raw clients may
violate it. -/
def Action.targetsValid (g : Game) : Action → Bool
  | addPlayer p => p.id ≠ ""
  | askQuestion _ toP _ _ => g.players.any (fun p => p.id = toP)
  | _ => true

/-- Every action of a trace has valid targets in the state it runs in. -/
def wfTrace : Game → List Action → Bool
  | _, [] => true
  | g, a :: rest => a.targetsValid g && wfTrace (Action.apply g a).2 rest

/-- Inductive invariant behind the at-most-one-live-accusation property:
the live count is at most one, it is zero while waiting or in progress,
and during end-of-round voting a live accusation means the player whose
turn it is has already used their accusation. -/
def AccusationInv (g : Game) : Prop :=
  activeCount g.accusations ≤ 1 ∧
  (g.status = GameStatus.WAITING → activeCount g.accusations = 0) ∧
  (g.status = GameStatus.IN_PROGRESS → activeCount g.accusations = 0) ∧
  (g.status = GameStatus.END_OF_ROUND_VOTING → 1 ≤ activeCount g.accusations →
    ∀ p, g.players.find? (fun q => some q.id = g.current_turn) = some p →
      p.has_accused_this_round = true)

/-- `current_turn` names an actual player whenever the roster is
non-empty and the turn is set. -/
def TurnInv (g : Game) : Prop :=
  g.players ≠ [] → ∀ t, g.current_turn = some t → ∃ p ∈ g.players, p.id = t

/-- Inductive strengthening of `TurnInv`: while the game is WAITING the
turn is not assigned at all. -/
def StrongTurnInv (g : Game) : Prop :=
  (g.status = GameStatus.WAITING → g.current_turn = none) ∧ TurnInv g

/-- All ids in play are Python-truthy: no player has the empty id and the
turn is never set to the empty string, which `_advance_turn`
treats like an unset turn. -/
def NonemptyIdInv (g : Game) : Prop :=
  (∀ p ∈ g.players, p.id ≠ "") ∧ g.current_turn ≠ some ""

/-- Sample players for the concrete executions below. -/
def pA : Player := { id := "A", name := "Ann" }

/-- Sample player. -/
def pB : Player := { id := "B", name := "Ben" }

/-- Sample player. -/
def pC : Player := { id := "C", name := "Cal" }

/-- A three-player game started deterministically (no shuffle, player A
is the spy, location `Airplane`). -/
def gStarted : Game :=
  (((((Game.new "G1" 0).add_player pA).2.add_player pB).2.add_player pC).2.start_game
    false [] 0 0 [] [] 1).2

/-- The trace building `gStarted`, then reaching end-of-round voting and
exercising `remove_player` between two end-of-round accusations. -/
def removeDuringEndOfRoundTrace : List Action :=
  [Action.addPlayer pA, Action.addPlayer pB, Action.addPlayer pC,
   Action.startGame false [] 0 0 [] [] 1,
   Action.checkTimeExpired 482,
   Action.makeEndOfRoundAccusation "A" "B" 483,
   Action.removePlayer "A",
   Action.makeEndOfRoundAccusation "C" "B" 484]

/-- The trace that sends a question to an id that is not a player. -/
def ghostTargetTrace : List Action :=
  [Action.addPlayer pA, Action.addPlayer pB, Action.addPlayer pC,
   Action.startGame false [] 0 0 [] [] 1,
   Action.askQuestion "A" "ghost" "q" 2]

/-- A game in mid-round VOTING over an accusation by A against C,
with no votes yet. -/
def gVoting : Game := (gStarted.stop_clock_for_accusation "A" "C" 4).2

/-- A voting-phase game in which eligible voter B has not voted but an
outsider's vote can complete the count: A has voted guilty, the accused
is C, and the eligible voters are A and B. -/
def gVotingOneShort : Game := (gVoting.vote_on_accusation "A" true 5).2

/-- An end-of-round-voting state in which every player has already used
their accusation: the spy is A, C's accusation against the innocent B is
live, and C has voted guilty.  A's vote completes the count. -/
def gAllAccused : Game :=
  { id := "G2", created_at := 0
    players := [
      { pA with role := some PlayerRole.SPY, has_accused_this_round := true },
      { pB with role := some PlayerRole.INNOCENT, has_accused_this_round := true },
      { pC with role := some PlayerRole.INNOCENT, has_accused_this_round := true }]
    status := GameStatus.END_OF_ROUND_VOTING
    current_turn := some "C"
    spy_id := some "A"
    accusations := [{ accuser_id := "C", accused_id := "B", votes := [("C", true)], timestamp := 5, is_active := true }]
    clock_stopped := true
    clock_stopped_by := some "time_expired" }

/-- An end-of-round-voting state with a live unanimous-bound accusation
by C against the innocent B; only C has accused so far. -/
def gEndUnanimous : Game :=
  { id := "G3", created_at := 0
    players := [
      { pA with role := some PlayerRole.SPY },
      { pB with role := some PlayerRole.INNOCENT },
      { pC with role := some PlayerRole.INNOCENT, has_accused_this_round := true }]
    status := GameStatus.END_OF_ROUND_VOTING
    current_turn := some "C"
    spy_id := some "A"
    accusations := [{ accuser_id := "C", accused_id := "B", votes := [("C", true)], timestamp := 5, is_active := true }]
    clock_stopped := true
    clock_stopped_by := some "time_expired" }

/-- Like `gEndUnanimous`, but C voted not-guilty, so A's vote makes the
completed vote non-unanimous. -/
def gEndSplit : Game :=
  { id := "G4", created_at := 0
    players := [
      { pA with role := some PlayerRole.SPY },
      { pB with role := some PlayerRole.INNOCENT },
      { pC with role := some PlayerRole.INNOCENT, has_accused_this_round := true }]
    status := GameStatus.END_OF_ROUND_VOTING
    current_turn := some "C"
    spy_id := some "A"
    accusations := [{ accuser_id := "C", accused_id := "B", votes := [("C", false)], timestamp := 5, is_active := true }]
    clock_stopped := true
    clock_stopped_by := some "time_expired" }

/-! ## Generic helper lemmas -/

theorem find?_congr {p q : α → Bool} (h : ∀ a, p a = q a) :
    ∀ l : List α, l.find? p = l.find? q
  | [] => rfl
  | a :: l => by
    rw [List.find?_cons, List.find?_cons, h a]
    cases q a
    · exact find?_congr h l
    · rfl

theorem find?_modifyFirst (p : α → Bool) (f : α → α) (hf : ∀ a, p (f a) = p a) :
    ∀ l : List α, (modifyFirst p f l).find? p = (l.find? p).map f
  | [] => rfl
  | a :: l => by
    by_cases h : p a
    · simp [modifyFirst, h, List.find?_cons, hf a]
    · simp [modifyFirst, h, List.find?_cons, find?_modifyFirst p f hf l]

theorem map_modifyFirst (p : α → Bool) (f : α → α) (g : α → β)
    (hf : ∀ a, g (f a) = g a) :
    ∀ l : List α, (modifyFirst p f l).map g = l.map g
  | [] => rfl
  | a :: l => by
    by_cases h : p a
    · simp [modifyFirst, h, hf a]
    · simp [modifyFirst, h, map_modifyFirst p f g hf l]

theorem mem_modifyFirst_of_mem (p : α → Bool) (f : α → α) :
    ∀ l : List α, ∀ x ∈ l, x ∈ modifyFirst p f l ∨ f x ∈ modifyFirst p f l
  | [], x, hx => absurd hx (List.not_mem_nil x)
  | a :: l, x, hx => by
    by_cases h : p a
    · simp only [modifyFirst, h, if_true]
      rcases List.mem_cons.mp hx with rfl | hx
      · right; exact List.mem_cons_self _ _
      · left; exact List.mem_cons_of_mem _ hx
    · simp only [modifyFirst, h, if_false]
      rcases List.mem_cons.mp hx with rfl | hx
      · left; exact List.mem_cons_self _ _
      · rcases mem_modifyFirst_of_mem p f l x hx with h' | h'
        · left; exact List.mem_cons_of_mem _ h'
        · right; exact List.mem_cons_of_mem _ h'

theorem activeCount_reverse (l : List Accusation) :
    activeCount l.reverse = activeCount l := by
  simp [activeCount, List.filter_reverse]

theorem activeCount_append (l₁ l₂ : List Accusation) :
    activeCount (l₁ ++ l₂) = activeCount l₁ + activeCount l₂ := by
  simp [activeCount, List.filter_append]

theorem activeCount_go (f : Accusation → Accusation)
    (hf : ∀ a, (f a).is_active = a.is_active) :
    ∀ l, activeCount (modifyLastActive.go f l) = activeCount l
  | [] => rfl
  | a :: l => by
    by_cases h : a.is_active
    · simp [modifyLastActive.go, h, activeCount, List.filter_cons, hf a]
    · have ih := activeCount_go f hf l
      simp only [activeCount] at ih
      simp [modifyLastActive.go, h, activeCount, List.filter_cons, ih]

theorem activeCount_modifyLastActive (f : Accusation → Accusation)
    (hf : ∀ a, (f a).is_active = a.is_active) (l : List Accusation) :
    activeCount (modifyLastActive f l) = activeCount l := by
  unfold modifyLastActive
  rw [activeCount_reverse, activeCount_go f hf, activeCount_reverse]

theorem activeCount_go_deact :
    ∀ l, activeCount
      (modifyLastActive.go (fun a => { a with is_active := false }) l) =
        activeCount l - 1
  | [] => rfl
  | a :: l => by
    by_cases h : a.is_active
    · simp [modifyLastActive.go, h, activeCount, List.filter_cons]
    · simp only [modifyLastActive.go, h, if_false, activeCount, List.filter_cons]
      have := activeCount_go_deact l
      simp only [activeCount] at this
      simp [h, this]

theorem activeCount_deactivateLastActive (l : List Accusation) :
    activeCount (deactivateLastActive l) = activeCount l - 1 := by
  unfold deactivateLastActive modifyLastActive
  rw [activeCount_reverse, activeCount_go_deact, activeCount_reverse]

theorem getLast?_filter_eq_head? (l : List Accusation) :
    (l.filter (fun a => a.is_active)).getLast? =
      (l.reverse.filter (fun a => a.is_active)).head? := by
  rw [List.getLast?_eq_head?_reverse, List.filter_reverse]

theorem head?_filter_go (f : Accusation → Accusation)
    (hf : ∀ a, (f a).is_active = a.is_active) :
    ∀ l, ((modifyLastActive.go f l).filter (fun a => a.is_active)).head? =
      ((l.filter (fun a => a.is_active)).head?).map f
  | [] => rfl
  | a :: l => by
    by_cases h : a.is_active
    · simp [modifyLastActive.go, h, List.filter_cons, hf a]
    · simp [modifyLastActive.go, h, List.filter_cons, head?_filter_go f hf l]

theorem getLast?_filter_modifyLastActive (f : Accusation → Accusation)
    (hf : ∀ a, (f a).is_active = a.is_active) (l : List Accusation) :
    ((modifyLastActive f l).filter (fun a => a.is_active)).getLast? =
      ((l.filter (fun a => a.is_active)).getLast?).map f := by
  rw [getLast?_filter_eq_head?, getLast?_filter_eq_head?]
  unfold modifyLastActive
  rw [List.reverse_reverse]
  exact head?_filter_go f hf l.reverse

theorem getLast?_filter_eq_none_of_activeCount_zero {l : List Accusation}
    (h : activeCount l = 0) :
    (l.filter (fun a => a.is_active)).getLast? = none := by
  have : l.filter (fun a => a.is_active) = [] := List.length_eq_zero.mp h
  rw [this]; rfl

theorem activeCount_pos_of_getLast?_filter {l : List Accusation}
    {a : Accusation}
    (h : (l.filter (fun a => a.is_active)).getLast? = some a) :
    1 ≤ activeCount l ∧ a.is_active = true := by
  have hmem : a ∈ l.filter (fun a => a.is_active) :=
    List.mem_of_mem_getLast? h
  constructor
  · exact List.length_pos.mpr (List.ne_nil_of_mem hmem)
  · exact (List.mem_filter.mp hmem).2

theorem mem_go_of_mem (f : Accusation → Accusation) :
    ∀ l, ∀ x ∈ l, x ∈ modifyLastActive.go f l ∨ f x ∈ modifyLastActive.go f l
  | [], x, hx => absurd hx (List.not_mem_nil x)
  | a :: l, x, hx => by
    by_cases h : a.is_active
    · simp only [modifyLastActive.go, h, if_true]
      rcases List.mem_cons.mp hx with rfl | hx
      · right; exact List.mem_cons_self _ _
      · left; exact List.mem_cons_of_mem _ hx
    · simp only [modifyLastActive.go, h, if_false]
      rcases List.mem_cons.mp hx with rfl | hx
      · left; exact List.mem_cons_self _ _
      · rcases mem_go_of_mem f l x hx with h' | h'
        · left; exact List.mem_cons_of_mem _ h'
        · right; exact List.mem_cons_of_mem _ h'

theorem mem_modifyLastActive_of_mem (f : Accusation → Accusation)
    (l : List Accusation) (x : Accusation) (hx : x ∈ l) :
    x ∈ modifyLastActive f l ∨ f x ∈ modifyLastActive f l := by
  unfold modifyLastActive
  rcases mem_go_of_mem f l.reverse x (List.mem_reverse.mpr hx) with h | h
  · left; exact List.mem_reverse.mpr h
  · right; exact List.mem_reverse.mpr h

theorem find?_map_overwrite (k : String) (v : Bool) :
    ∀ d : List (String × Bool), d.any (fun kv => kv.1 = k) = true →
      (d.map (fun kv => if kv.1 = k then (k, v) else kv)).find?
        (fun kv => kv.1 = k) = some (k, v)
  | [], h => by simp at h
  | kv :: d, h => by
    by_cases hk : kv.1 = k
    · simp [List.find?_cons, hk]
    · have h' : d.any (fun kv => kv.1 = k) = true := by
        simpa [List.any_cons, hk] using h
      simp [List.find?_cons, hk, find?_map_overwrite k v d h']

theorem dictLookup_dictInsert_self (d : List (String × Bool)) (k : String)
    (v : Bool) : dictLookup (dictInsert d k v) k = some v := by
  unfold dictInsert dictLookup
  by_cases h : d.any (fun kv => kv.1 = k)
  · rw [if_pos h, find?_map_overwrite k v d h]; rfl
  · rw [if_neg h]
    have hnone : d.find? (fun kv => kv.1 = k) = none := by
      rw [List.find?_eq_none]
      intro x hx
      by_contra hpx
      exact h (List.any_eq_true.mpr ⟨x, hx, by simpa using hpx⟩)
    rw [List.find?_append, hnone]
    simp

theorem findSome?_eq_some_iff {f : α → Option β} :
    ∀ {l : List α} {b : β}, l.findSome? f = some b ↔
      ∃ i, i < l.length ∧ (l[i]?.bind f) = some b ∧
        ∀ j, j < i → (l[j]?.bind f) = none := by
  intro l
  induction l with
  | nil => intro b; simp
  | cons a l ih =>
    intro b
    cases hfa : f a with
    | some c =>
      simp only [List.findSome?_cons, hfa]
      constructor
      · rintro h
        exact ⟨0, Nat.succ_pos _, by simpa [hfa] using h,
          fun j hj => absurd hj (Nat.not_lt_zero j)⟩
      · rintro ⟨i, hi, hb, hprev⟩
        cases i with
        | zero => simpa [hfa] using hb
        | succ i =>
          have := hprev 0 (Nat.succ_pos i)
          simp [hfa] at this
    | none =>
      simp only [List.findSome?_cons, hfa]
      rw [ih]
      constructor
      · rintro ⟨i, hi, hb, hprev⟩
        refine ⟨i + 1, Nat.succ_lt_succ hi, by simpa using hb, ?_⟩
        intro j hj
        cases j with
        | zero => simp [hfa]
        | succ j => simpa using hprev j (Nat.lt_of_succ_lt_succ hj)
      · rintro ⟨i, hi, hb, hprev⟩
        cases i with
        | zero => simp [hfa] at hb
        | succ i =>
          refine ⟨i, Nat.lt_of_succ_lt_succ hi, by simpa using hb, ?_⟩
          intro j hj
          have := hprev (j + 1) (Nat.succ_lt_succ hj)
          simpa using this

theorem findNextAccuser_eq_none_of_all_accused {ps : List Player} {ci : Nat}
    (h : ∀ p ∈ ps, p.has_accused_this_round = true) :
    Game.findNextAccuser ps ci = none := by
  unfold Game.findNextAccuser
  rw [List.findSome?_eq_none_iff]
  intro i _
  cases hp : ps[(ci + i) % ps.length]? with
  | none => simp
  | some p => simp [h p (List.getElem?_mem hp)]

theorem findNextAccuser_eq_some_iff {ps : List Player} {ci : Nat} {q : Player}
    (hps : ps ≠ []) :
    Game.findNextAccuser ps ci = some q ↔
      ∃ k, 1 ≤ k ∧ k < ps.length ∧
        ps[(ci + k) % ps.length]? = some q ∧
        q.has_accused_this_round = false ∧
        ∀ j, 1 ≤ j → j < k → ∀ r, ps[(ci + j) % ps.length]? = some r →
          r.has_accused_this_round = true := by
  have hn : 0 < ps.length := List.length_pos.mpr hps
  have hrange : ∀ i, i < ps.length - 1 →
      (List.range' 1 (ps.length - 1))[i]? = some (1 + i) := by
    intro i hi
    rw [List.getElem?_eq_getElem (by simpa [List.length_range'] using hi)]
    simp [List.getElem_range'_1]
  have hsome : ∀ m : Nat, ∃ r, ps[(ci + m) % ps.length]? = some r := by
    intro m
    have hlt : (ci + m) % ps.length < ps.length := Nat.mod_lt _ hn
    exact ⟨ps[(ci + m) % ps.length], List.getElem?_eq_getElem hlt⟩
  unfold Game.findNextAccuser
  rw [findSome?_eq_some_iff]
  constructor
  · rintro ⟨i, hi, hb, hprev⟩
    rw [List.length_range'] at hi
    rw [hrange i hi] at hb
    simp only [Option.some_bind] at hb
    obtain ⟨r, hr⟩ := hsome (1 + i)
    rw [hr] at hb
    by_cases hacc : r.has_accused_this_round
    · simp [hacc] at hb
    · simp only [hacc, if_false, Bool.false_eq_true] at hb
      refine ⟨1 + i, Nat.le_add_right 1 i, by omega, ?_, ?_, ?_⟩
      · rw [hr, hb]
      · have hrq : r = q := by injection hb
        subst hrq
        simpa using hacc
      · intro j hj1 hjk r' hr'
        have hprevj := hprev (j - 1) (by omega)
        rw [hrange (j - 1) (by omega)] at hprevj
        simp only [Option.some_bind] at hprevj
        have : (1 : Nat) + (j - 1) = j := by omega
        rw [this, hr'] at hprevj
        by_contra hcon
        simp [hcon] at hprevj
  · rintro ⟨k, hk1, hkn, hk, hq, hprev⟩
    refine ⟨k - 1, by simp [List.length_range']; omega, ?_, ?_⟩
    · rw [hrange (k - 1) (by omega)]
      simp only [Option.some_bind]
      have : (1 : Nat) + (k - 1) = k := by omega
      rw [this, hk]
      simp [hq]
    · intro j hj
      rw [hrange j (by omega)]
      simp only [Option.some_bind]
      obtain ⟨r, hr⟩ := hsome (1 + j)
      rw [hr]
      have := hprev (1 + j) (Nat.le_add_right 1 j) (by omega) r hr
      simp [this]

/-! ## Claim theorems -/

/-- C2: `ask_question(asker, target, content)` succeeds iff the phase is
IN_PROGRESS, the clock is not stopped, the asker is the current turn
holder and the target is not the player recorded in
`last_questioned_by`; on success it appends exactly one question message
and afterwards `current_turn = target` and `last_questioned_by = asker`;
on failure it returns false and leaves the game unchanged. -/
theorem ask_question_correct (g : Game) (asker target content : String)
    (now : ℚ) :
    ((g.ask_question asker target content now).1 = true ↔
      (g.status = GameStatus.IN_PROGRESS ∧ g.clock_stopped = false ∧
        g.current_turn = some asker ∧ g.last_questioned_by ≠ some target)) ∧
    ((g.ask_question asker target content now).1 = true →
      (g.ask_question asker target content now).2 =
        { g with
          messages := (g.messages ++ [{ id := (now, asker), type := "question", from_id := asker, to_id := some target, content := content, timestamp := now }])
          current_turn := some target
          last_questioned_by := some asker }) ∧
    ((g.ask_question asker target content now).1 = false →
      (g.ask_question asker target content now).2 = g) := by
  unfold Game.ask_question
  split_ifs with h1 h2 h3
  · refine ⟨?_, by intro h; simp at h, fun _ => rfl⟩
    simp only [false_iff]
    rintro ⟨hs, hc, -, -⟩
    rcases h1 with h | h
    · exact h hs
    · rw [hc] at h; exact Bool.false_ne_true h
  · refine ⟨?_, by intro h; simp at h, fun _ => rfl⟩
    simp only [false_iff]
    rintro ⟨-, -, ht, -⟩
    exact h2 ht
  · refine ⟨?_, by intro h; simp at h, fun _ => rfl⟩
    simp only [false_iff]
    rintro ⟨-, -, -, hl⟩
    exact hl h3
  · push_neg at h1
    refine ⟨?_, fun _ => rfl, by intro h; simp at h⟩
    simp only [true_iff]
    exact ⟨h1.1, by simpa using h1.2, by simpa using h2, h3⟩

/-- Witness for `ask_question_correct` at a concrete input: in the
started three-player game it is A's turn, so A questioning B succeeds
and hands the turn to B. -/
theorem ask_question_correct_witness :
    (gStarted.ask_question "A" "B" "q" 2).1 = true ∧
      (gStarted.ask_question "A" "B" "q" 2).2.current_turn = some "B" ∧
      (gStarted.ask_question "A" "B" "q" 2).2.last_questioned_by = some "A" := by
  have h := ask_question_correct gStarted "A" "B" "q" 2
  have hsucc : (gStarted.ask_question "A" "B" "q" 2).1 = true :=
    h.1.mpr (by refine ⟨?_, ?_, ?_, ?_⟩ <;> decide)
  have heff := h.2.1 hsucc
  exact ⟨hsucc, by rw [heff], by rw [heff]⟩

/-- C3: a successful `give_answer` changes the game exactly by appending
one answer message addressed to `last_questioned_by` and incrementing the
completed-round counter; in particular `current_turn` and every other
field (phase, clock flag, `last_questioned_by`, scores, accusations) are
untouched. -/
theorem give_answer_correct (g : Game) (answerer content : String) (now : ℚ) :
    (g.give_answer answerer content now).1 = true →
      (g.give_answer answerer content now).2 =
        { g with
          messages := (g.messages ++ [{ id := (now, answerer), type := "answer", from_id := answerer, to_id := g.last_questioned_by, content := content, timestamp := now }])
          qa_rounds_completed := g.qa_rounds_completed + 1 } := by
  unfold Game.give_answer
  split_ifs with h1 h2
  · intro h; simp at h
  · intro h; simp at h
  · intro _; rfl

/-- Witness for `give_answer_correct`: B answers A's question; the round
counter goes from 0 to 1 and the turn stays with B. -/
theorem give_answer_correct_witness :
    ((gStarted.ask_question "A" "B" "q" 2).2.give_answer "B" "a" 3).2.qa_rounds_completed =
        (gStarted.ask_question "A" "B" "q" 2).2.qa_rounds_completed + 1 ∧
      ((gStarted.ask_question "A" "B" "q" 2).2.give_answer "B" "a" 3).2.current_turn =
        (gStarted.ask_question "A" "B" "q" 2).2.current_turn := by
  have h := give_answer_correct (gStarted.ask_question "A" "B" "q" 2).2 "B" "a" 3
    (by decide)
  rw [h]
  exact ⟨rfl, rfl⟩

theorem is_expired_false_frame (t : GameTimer) (now : ℚ) :
    (t.is_expired now).1 = false → (t.is_expired now).2 = t := by
  unfold GameTimer.is_expired TimerState.get_remaining_time
  by_cases h1 : t.state.status = TimerStatus.EXPIRED
  · simp [h1]
  · by_cases h2 : max 0 (t.state.duration - t.state.get_elapsed_time now) ≤ 0
    · simp [h1, h2]
    · simp [h1, h2]

/-- C8: every engine operation that fails returns `false` without
touching any part of the game state (all-or-nothing per action). -/
theorem failed_action_leaves_game_unchanged (g : Game) (a : Action) :
    (Action.apply g a).1 = false → (Action.apply g a).2 = g := by
  cases a with
  | addPlayer p =>
    simp only [Action.apply]
    unfold Game.add_player
    split_ifs <;> intro h <;> first | rfl | simp at h
  | removePlayer pid =>
    simp only [Action.apply]
    unfold Game.remove_player
    intro h; simp at h
  | startGame ro orderO spyO locO rolesO fallbackO now =>
    simp only [Action.apply]
    unfold Game.start_game
    split_ifs <;> intro h <;> first | rfl | simp at h
  | askQuestion f t c now =>
    exact (ask_question_correct g f t c now).2.2
  | giveAnswer f c now =>
    simp only [Action.apply]
    unfold Game.give_answer
    split_ifs <;> intro h <;> first | rfl | simp at h
  | stopClockForAccusation x y now =>
    simp only [Action.apply]
    unfold Game.stop_clock_for_accusation
    repeat' split
    all_goals intro h
    all_goals first
      | rfl
      | (simp at h; done)
      | (exfalso; dsimp only at h;
         first | (simp at h; done) | (split at h <;> simp at h))
  | voteOnAccusation v b now =>
    simp only [Action.apply]
    unfold Game.vote_on_accusation
    repeat' split
    all_goals intro h
    all_goals first
      | rfl
      | (simp at h; done)
      | (exfalso; dsimp only at h;
         first | (simp at h; done) | (split at h <;> simp at h))
  | spyGuessLocation s l =>
    simp only [Action.apply]
    unfold Game.spy_guess_location
    repeat' split
    all_goals intro h
    all_goals first
      | rfl
      | (simp at h; done)
      | (exfalso; dsimp only at h;
         first | (simp at h; done) | (split at h <;> simp at h))
  | checkTimeExpired now =>
    simp only [Action.apply]
    unfold Game.check_time_expired
    split
    · intro _; rfl
    · cases hexp : g.timer.is_expired now with
      | mk e t' =>
        cases e with
        | true => intro h; simp [hexp] at h
        | false =>
          intro _
          have := is_expired_false_frame g.timer now
          rw [hexp] at this
          simp only [hexp]
          have ht : t' = g.timer := this rfl
          rw [ht]
          rfl
  | makeEndOfRoundAccusation x y now =>
    simp only [Action.apply]
    unfold Game.make_end_of_round_accusation
    repeat' split
    all_goals intro h
    all_goals first
      | rfl
      | (simp at h; done)
      | (exfalso; dsimp only at h;
         first | (simp at h; done) | (split at h <;> simp at h))
  | voteOnEndOfRoundAccusation v b =>
    simp only [Action.apply]
    unfold Game.vote_on_end_of_round_accusation
    repeat' split
    all_goals intro h
    all_goals first
      | rfl
      | (simp at h; done)
      | (exfalso; dsimp only at h;
         first | (simp at h; done) | (split at h <;> simp at h))

/-- Witness for `failed_action_leaves_game_unchanged`: asking a question
in a game that is still WAITING fails and changes nothing. -/
theorem failed_action_leaves_game_unchanged_witness :
    (Action.apply (Game.new "W" 0) (Action.askQuestion "A" "B" "q" 1)).2 =
      Game.new "W" 0 :=
  failed_action_leaves_game_unchanged (Game.new "W" 0)
    (Action.askQuestion "A" "B" "q" 1) (by decide)

/-- C9: for a started (and genuinely wall-clock-stamped, i.e. non-zero
instant) timer, elapsed time is wall-clock time since start minus
accumulated paused time, minus the current pause's duration when paused;
in particular after start at `t0`, pause at `t1` and resume at `t2`, a
later reading at `t3` excludes the paused interval `t2 - t1`. -/
theorem timer_elapsed_correct :
    (∀ (s : TimerState) (now st : ℚ), s.is_running = true →
      s.started_at = some st → st ≠ 0 →
      s.get_elapsed_time now = (now - st) - s.accumulated_paused_time) ∧
    (∀ (s : TimerState) (now st lp : ℚ), s.is_running = false →
      s.started_at = some st → st ≠ 0 → s.last_pause_time = some lp → lp ≠ 0 →
      s.get_elapsed_time now =
        ((now - st) - s.accumulated_paused_time) - (now - lp)) ∧
    (∀ (d t0 t1 t2 t3 : ℚ), t0 ≠ 0 → t1 ≠ 0 →
      (((((GameTimer.new d).start t0).2.pause t1).2.resume t2).2.state.get_elapsed_time t3 =
        (t3 - t0) - (t2 - t1))) := by
  refine ⟨?_, ?_, ?_⟩
  · intro s now st hrun hst hst0
    unfold TimerState.get_elapsed_time
    simp [hst, optFloatTruthy, hst0, hrun]
  · intro s now st lp hrun hst hst0 hlp hlp0
    unfold TimerState.get_elapsed_time
    simp only [hst, hlp, optFloatTruthy, hst0, hrun]
    simp [hst0, hlp0]
    ring
  · intro d t0 t1 t2 t3 ht0 ht1
    unfold GameTimer.new GameTimer.start GameTimer.pause GameTimer.resume
      TimerState.get_elapsed_time
    simp [optFloatTruthy, ht0, ht1]

/-- Witness for `timer_elapsed_correct` at concrete instants: a running
timer started at 10 with 2 seconds already paused reads 18 at 30; a
timer paused at 20 reads the value frozen at the pause; the
start-pause-resume chain 10/20/25 read at 30 gives 15, excluding the
5-second pause. -/
theorem timer_elapsed_correct_witness :
    ({ duration := 480, started_at := some 10, accumulated_paused_time := 2,
        is_running := true : TimerState }.get_elapsed_time 30 = 18) ∧
    ({ duration := 480, started_at := some 10, accumulated_paused_time := 0,
        is_running := false, last_pause_time := some 20 : TimerState }.get_elapsed_time 30
      = 30 - 10 - 0 - (30 - 20)) ∧
    (((((GameTimer.new 480).start 10).2.pause 20).2.resume 25).2.state.get_elapsed_time 30 =
      (30 - 10) - (25 - 20)) := by
  refine ⟨?_, ?_, ?_⟩
  · have h := timer_elapsed_correct.1
      { duration := 480, started_at := some 10, accumulated_paused_time := 2,
        is_running := true : TimerState } 30 10 rfl rfl (by norm_num)
    rw [h]; norm_num
  · exact timer_elapsed_correct.2.1
      { duration := 480, started_at := some 10, accumulated_paused_time := 0,
        is_running := false, last_pause_time := some 20 : TimerState } 30 10 20
      rfl rfl (by norm_num) rfl (by norm_num)
  · exact timer_elapsed_correct.2.2 480 10 20 25 30 (by norm_num) (by norm_num)

theorem current_accusation_update (g : Game) (f : Accusation → Accusation)
    (hf : ∀ a, (f a).is_active = a.is_active) :
    Game.current_accusation
        { g with accusations := modifyLastActive f g.accusations } =
      (g.current_accusation).map f := by
  unfold Game.current_accusation
  exact getLast?_filter_modifyLastActive f hf g.accusations

theorem head?_filter_mem_go (f : Accusation → Accusation) :
    ∀ m : List Accusation, ∀ c : Accusation,
      ((m.filter (fun a => a.is_active)).head? = some c) →
        f c ∈ modifyLastActive.go f m
  | [], c, h => by simp at h
  | a :: m, c, h => by
    by_cases ha : a.is_active
    · simp only [List.filter_cons, ha, if_true] at h
      simp only [List.head?] at h
      obtain rfl : a = c := by injection h
      simp [modifyLastActive.go, ha]
    · simp only [List.filter_cons, ha] at h
      simp only [modifyLastActive.go, ha, if_false]
      rw [if_neg (by simpa using ha)] at h
      exact List.mem_cons_of_mem _ (head?_filter_mem_go f m c h)

theorem mem_modifyLastActive_of_current (f : Accusation → Accusation)
    (l : List Accusation) (c : Accusation)
    (h : (l.filter (fun a => a.is_active)).getLast? = some c) :
    f c ∈ modifyLastActive f l := by
  rw [getLast?_filter_eq_head?] at h
  unfold modifyLastActive
  exact List.mem_reverse.mpr (head?_filter_mem_go f l.reverse c h)

theorem resolve_accusation_accusations (g : Game) (now : ℚ) :
    (g.resolve_accusation now).accusations = g.accusations ∨
      (g.resolve_accusation now).accusations =
        deactivateLastActive g.accusations := by
  unfold Game.resolve_accusation
  repeat' split
  all_goals simp [Game.end_game]

theorem votes_preserved_deactivate (l : List Accusation) (x : Accusation)
    (hx : x ∈ l) :
    ∃ y ∈ deactivateLastActive l, y.votes = x.votes := by
  rcases mem_modifyLastActive_of_mem
      (fun a => { a with is_active := false }) l x hx with h | h
  · exact ⟨x, h, rfl⟩
  · exact ⟨{ x with is_active := false }, h, rfl⟩

/-- C1: during VOTING with a live accusation, a vote from anyone other
than the accused succeeds; writing the vote yields the map
`dictInsert acc.votes voter vote`, and with `N` eligible voters (the
players other than the accused) resolution runs exactly when that map
reaches size `N`; for `N > 0` the guilty verdict is exactly "all
recorded votes are true"; a non-unanimous verdict deactivates the
accusation, clears the clock-stopped flag and its holder, resumes the
timer and returns the phase to IN_PROGRESS with the player list (hence
every score) unchanged. -/
theorem vote_on_accusation_correct (g : Game) (voter : String) (vote : Bool)
    (now : ℚ) (acc : Accusation)
    (hstatus : g.status = GameStatus.VOTING)
    (hacc : g.current_accusation = some acc)
    (hvoter : voter ≠ acc.accused_id) :
    (g.vote_on_accusation voter vote now).1 = true ∧
    (let votes' := dictInsert acc.votes voter vote
     let N := (g.players.filter (fun p => p.id ≠ acc.accused_id)).length
     let g1 : Game := { g with accusations := (modifyLastActive (fun a => { a with votes := dictInsert a.votes voter vote }) g.accusations) }
     (votes'.length ≠ N → (g.vote_on_accusation voter vote now).2 = g1) ∧
     (votes'.length = N → 0 < N →
        unanimousGuilty votes' =
          (votes'.map (fun kv => kv.2)).all (fun v => v)) ∧
     (votes'.length = N → unanimousGuilty votes' = false →
        (g.vote_on_accusation voter vote now).2 =
          { g1 with
            accusations := deactivateLastActive g1.accusations
            clock_stopped := false
            clock_stopped_by := none
            status := GameStatus.IN_PROGRESS
            timer := (g1.timer.resume now).2 })) := by
  have hns : ¬ g.status ≠ GameStatus.VOTING := by simp [hstatus]
  have hcur1 : Game.current_accusation
      { g with accusations := (modifyLastActive (fun a => { a with votes := dictInsert a.votes voter vote }) g.accusations) } =
      some { acc with votes := dictInsert acc.votes voter vote } := by
    rw [current_accusation_update g
      (fun a => { a with votes := dictInsert a.votes voter vote })
      (fun a => rfl), hacc]
    rfl
  unfold Game.vote_on_accusation
  rw [if_neg hns, hacc]
  dsimp only
  rw [if_neg hvoter]
  refine ⟨by split <;> rfl, ?_, ?_, ?_⟩
  · intro hne
    rw [if_neg (by simpa [List.length_map] using hne)]
  · intro hlen hpos
    have hpos' : 0 < (dictInsert acc.votes voter vote).length := by
      rw [hlen]; exact hpos
    unfold unanimousGuilty
    rw [decide_eq_true hpos', Bool.and_true]
  · intro hlen hng
    rw [if_pos (by simpa [List.length_map] using hlen)]
    unfold Game.resolve_accusation
    rw [hcur1]
    dsimp only
    rw [if_neg (by simp [hng])]

/-- Witness for `vote_on_accusation_correct`: in `gVoting` (A accused C,
no votes yet, eligible voters A and B), B's guilty vote succeeds and,
being only 1 of 2 required votes, does not trigger resolution. -/
theorem vote_on_accusation_correct_witness :
    (gVoting.vote_on_accusation "B" true 5).1 = true ∧
      (gVoting.vote_on_accusation "B" true 5).2 =
        { gVoting with accusations := (modifyLastActive (fun a => { a with votes := dictInsert a.votes "B" true }) gVoting.accusations) } := by
  obtain ⟨hacc, hrest⟩ := vote_on_accusation_correct gVoting "B" true 5
    (gVoting.current_accusation.getD { accuser_id := "", accused_id := "", timestamp := 0 })
    (by decide) (by decide) (by decide)
  exact ⟨hacc, hrest.1 (by decide)⟩

/-- C10: `vote_on_accusation` never checks that the voter is a player:
during VOTING with a live accusation any voter id other than the
accused's succeeds and its vote is recorded in the accusation, and such
a vote counts toward the all-eligible-voters threshold (in the concrete
game below the outsider "Zed"'s vote completes the count and resolves
the game while eligible player B never voted); by contrast,
`vote_on_end_of_round_accusation` rejects any voter that is not in the
player list, changing nothing. -/
theorem vote_voter_membership_contrast :
    (∀ (g : Game) (voter : String) (vote : Bool) (now : ℚ) (acc : Accusation),
      g.status = GameStatus.VOTING → g.current_accusation = some acc →
      voter ≠ acc.accused_id →
      (g.vote_on_accusation voter vote now).1 = true ∧
      ∃ a ∈ (g.vote_on_accusation voter vote now).2.accusations,
        dictLookup a.votes voter = some vote) ∧
    (∀ (g : Game) (voter : String) (vote : Bool),
      (∀ p ∈ g.players, p.id ≠ voter) →
      g.vote_on_end_of_round_accusation voter vote = (false, g)) ∧
    ((gVotingOneShort.vote_on_accusation "Zed" true 6).1 = true ∧
      (gVotingOneShort.vote_on_accusation "Zed" true 6).2.status =
        GameStatus.FINISHED ∧
      gVotingOneShort.players.any (fun p => p.id = "B") = true ∧
      gVotingOneShort.accusations.all
        (fun a => (dictLookup a.votes "B").isNone) = true) := by
  refine ⟨?_, ?_, ?_⟩
  · intro g voter vote now acc hstatus hacc hvoter
    have hns : ¬ g.status ≠ GameStatus.VOTING := by simp [hstatus]
    have hacc' : (g.accusations.filter (fun a => a.is_active)).getLast? =
        some acc := hacc
    have hmem : ({ acc with votes := dictInsert acc.votes voter vote } : Accusation) ∈
        modifyLastActive (fun a => { a with votes := dictInsert a.votes voter vote }) g.accusations :=
      mem_modifyLastActive_of_current _ g.accusations acc hacc'
    have hlook : dictLookup (dictInsert acc.votes voter vote) voter = some vote :=
      dictLookup_dictInsert_self _ _ _
    unfold Game.vote_on_accusation
    rw [if_neg hns, hacc]
    dsimp only
    rw [if_neg hvoter]
    refine ⟨by split <;> rfl, ?_⟩
    split
    · rcases resolve_accusation_accusations
        { g with accusations := (modifyLastActive (fun a => { a with votes := dictInsert a.votes voter vote }) g.accusations) } now with
        hsame | hdeact
      · exact ⟨_, by rw [hsame]; exact hmem, hlook⟩
      · rcases votes_preserved_deactivate _ _ hmem with ⟨y, hy, hvy⟩
        exact ⟨y, by rw [hdeact]; exact hy, by rw [hvy]; exact hlook⟩
    · exact ⟨_, hmem, hlook⟩
  · intro g voter vote hnv
    have hfind : g.players.find? (fun p => p.id = voter) = none :=
      List.find?_eq_none.mpr (fun x hx => by simpa using hnv x hx)
    unfold Game.vote_on_end_of_round_accusation
    by_cases h1 : g.status ≠ GameStatus.END_OF_ROUND_VOTING
    · rw [if_pos h1]
    · rw [if_neg h1]
      cases hacc : g.current_accusation with
      | none => rfl
      | some acc =>
        dsimp only
        by_cases hv : voter = acc.accused_id
        · rw [if_pos hv]
        · rw [if_neg hv, hfind]
          rfl
  · refine ⟨by decide, by decide, by decide, by decide⟩

/-- Witness for `vote_voter_membership_contrast`: the outsider "Zed" may
vote in `gVoting` and the vote is recorded, while the outsider "Out" is
rejected by the end-of-round vote in `gAllAccused`. -/
theorem vote_voter_membership_contrast_witness :
    ((gVoting.vote_on_accusation "Zed" false 9).1 = true ∧
      ∃ a ∈ (gVoting.vote_on_accusation "Zed" false 9).2.accusations,
        dictLookup a.votes "Zed" = some false) ∧
    gAllAccused.vote_on_end_of_round_accusation "Out" true =
      (false, gAllAccused) := by
  constructor
  · exact vote_voter_membership_contrast.1 gVoting "Zed" false 9
      { accuser_id := "A", accused_id := "C", votes := [], timestamp := 4, is_active := true }
      (by decide) (by decide) (by decide)
  · exact vote_voter_membership_contrast.2.1 gAllAccused "Out" true (by decide)

/-- C6: in END_OF_ROUND_VOTING, when the vote that completes the count
is not unanimous-guilty and every player has already used their
accusation, the game finishes with winner "spy", end reason
TIME_EXPIRED, and the spy's score raised by exactly 2. -/
theorem end_of_round_exhausted_spy_wins (g : Game) (voter : String)
    (vote : Bool) (acc : Accusation) (sp : Player)
    (hstatus : g.status = GameStatus.END_OF_ROUND_VOTING)
    (hacc : g.current_accusation = some acc)
    (hvoter : voter ≠ acc.accused_id)
    (hfind : (g.players.find? (fun p => p.id = voter)).isSome = true)
    (hlen : (dictInsert acc.votes voter vote).length =
      (g.players.filter (fun p => p.id ≠ acc.accused_id)).length)
    (hng : unanimousGuilty (dictInsert acc.votes voter vote) = false)
    (hall : ∀ p ∈ g.players, p.has_accused_this_round = true)
    (hspy : g.players.find? (fun p => some p.id = g.spy_id) = some sp) :
    (g.vote_on_end_of_round_accusation voter vote).1 = true ∧
    (g.vote_on_end_of_round_accusation voter vote).2.status =
      GameStatus.FINISHED ∧
    (g.vote_on_end_of_round_accusation voter vote).2.winner = some "spy" ∧
    (g.vote_on_end_of_round_accusation voter vote).2.end_reason =
      some GameEndReason.TIME_EXPIRED ∧
    (g.vote_on_end_of_round_accusation voter vote).2.players.find?
        (fun p => some p.id = g.spy_id) =
      some { sp with points := sp.points + 2 } := by
  have hns : ¬ g.status ≠ GameStatus.END_OF_ROUND_VOTING := by simp [hstatus]
  have hnn : ¬ (g.players.find? (fun p => p.id = voter)).isNone = true := by
    rcases Option.isSome_iff_exists.mp hfind with ⟨q, hq⟩
    simp [hq]
  have hcur1 : Game.current_accusation
      { g with accusations := (modifyLastActive (fun a => { a with votes := dictInsert a.votes voter vote }) g.accusations) } =
      some { acc with votes := dictInsert acc.votes voter vote } := by
    rw [current_accusation_update g
      (fun a => { a with votes := dictInsert a.votes voter vote })
      (fun a => rfl), hacc]
    rfl
  have hnone : Game.findNextAccuser g.players
      ((g.players.findIdx? (fun p => some p.id = g.current_turn)).getD 0) =
      none := findNextAccuser_eq_none_of_all_accused hall
  unfold Game.vote_on_end_of_round_accusation
  rw [if_neg hns, hacc]
  dsimp only
  rw [if_neg hvoter, if_neg hnn]
  rw [if_pos (by simpa [List.length_map] using hlen)]
  unfold Game.resolve_end_of_round_accusation
  rw [hcur1]
  dsimp only
  rw [if_neg (by simp [hng])]
  unfold Game.move_to_next_end_of_round_accuser
  dsimp only
  rw [hnone]
  dsimp only [Game.end_game]
  refine ⟨rfl, rfl, rfl, rfl, ?_⟩
  rw [find?_modifyFirst (fun (p : Player) => decide (some p.id = g.spy_id))
    (fun (p : Player) => { p with points := p.points + 2 }) (fun _ => rfl), hspy]
  rfl

/-- Witness for `end_of_round_exhausted_spy_wins`: in `gAllAccused`
(everyone has accused, C's accusation of B live with C's guilty vote),
A's not-guilty vote completes the count and hands the spy the win. -/
theorem end_of_round_exhausted_spy_wins_witness :
    (gAllAccused.vote_on_end_of_round_accusation "A" false).2.winner =
        some "spy" ∧
      (gAllAccused.vote_on_end_of_round_accusation "A" false).2.end_reason =
        some GameEndReason.TIME_EXPIRED := by
  have h := end_of_round_exhausted_spy_wins gAllAccused "A" false
    { accuser_id := "C", accused_id := "B", votes := [("C", true)], timestamp := 5, is_active := true }
    { pA with role := some PlayerRole.SPY, has_accused_this_round := true }
    (by decide) (by decide) (by decide) (by decide) (by decide) (by decide)
    (by decide) (by decide)
  exact ⟨h.2.2.1, h.2.2.2.1⟩

/-- Counterexample to C5 as stated: in `gEndSplit` the accused B is
Innocent, yet when A's guilty vote completes a non-unanimous count the
spy does not win outright — the live accusation is merely retired and
the phase stays END_OF_ROUND_VOTING with the turn moved to A, no winner,
no end reason, and no score change. -/
theorem end_of_round_innocent_not_outright_counterexample :
    (∃ p ∈ gEndSplit.players, p.id = "B" ∧ p.role = some PlayerRole.INNOCENT) ∧
    gEndSplit.current_accusation.map (fun a => a.accused_id) = some "B" ∧
    (gEndSplit.vote_on_end_of_round_accusation "A" true).1 = true ∧
    activeCount (gEndSplit.vote_on_end_of_round_accusation "A" true).2.accusations = 0 ∧
    (gEndSplit.vote_on_end_of_round_accusation "A" true).2.winner = none ∧
    (gEndSplit.vote_on_end_of_round_accusation "A" true).2.end_reason = none ∧
    (gEndSplit.vote_on_end_of_round_accusation "A" true).2.status =
      GameStatus.END_OF_ROUND_VOTING ∧
    (gEndSplit.vote_on_end_of_round_accusation "A" true).2.current_turn = some "A" ∧
    (gEndSplit.vote_on_end_of_round_accusation "A" true).2.players.map
      (fun p => p.points) = gEndSplit.players.map (fun p => p.points) := by
  decide

/-- C5 (amended): in end-of-round resolution the spy wins outright
(reason INNOCENT_ACCUSED, +4) exactly in the unanimous-guilty branch
when the accused is Innocent; when the vote is not unanimous, play
advances to the next player in turn order (wrapping) who has not yet
accused this round, characterised by `findNextAccuser`. -/
theorem end_of_round_resolution_correct (g : Game) (voter : String)
    (vote : Bool) (acc : Accusation)
    (hstatus : g.status = GameStatus.END_OF_ROUND_VOTING)
    (hacc : g.current_accusation = some acc)
    (hvoter : voter ≠ acc.accused_id)
    (hfind : (g.players.find? (fun p => p.id = voter)).isSome = true)
    (hlen : (dictInsert acc.votes voter vote).length =
      (g.players.filter (fun p => p.id ≠ acc.accused_id)).length) :
    (∀ ap sp : Player,
      unanimousGuilty (dictInsert acc.votes voter vote) = true →
      g.players.find? (fun p => p.id = acc.accused_id) = some ap →
      ap.role = some PlayerRole.INNOCENT →
      g.players.find? (fun p => some p.id = g.spy_id) = some sp →
      (g.vote_on_end_of_round_accusation voter vote).2.status =
          GameStatus.FINISHED ∧
        (g.vote_on_end_of_round_accusation voter vote).2.end_reason =
          some GameEndReason.INNOCENT_ACCUSED ∧
        (g.vote_on_end_of_round_accusation voter vote).2.winner = some "spy" ∧
        (g.vote_on_end_of_round_accusation voter vote).2.players.find?
            (fun p => some p.id = g.spy_id) =
          some { sp with points := sp.points + 4 }) ∧
    (∀ q : Player,
      unanimousGuilty (dictInsert acc.votes voter vote) = false →
      Game.findNextAccuser g.players
        ((g.players.findIdx? (fun p => some p.id = g.current_turn)).getD 0) =
          some q →
      (g.vote_on_end_of_round_accusation voter vote).2.status =
          GameStatus.END_OF_ROUND_VOTING ∧
        (g.vote_on_end_of_round_accusation voter vote).2.current_turn =
          some q.id ∧
        activeCount
          (g.vote_on_end_of_round_accusation voter vote).2.accusations =
            activeCount g.accusations - 1 ∧
        (g.vote_on_end_of_round_accusation voter vote).2.winner = g.winner ∧
        (g.vote_on_end_of_round_accusation voter vote).2.players =
          g.players) ∧
    (∀ (q : Player) (ci : Nat), g.players ≠ [] →
      (Game.findNextAccuser g.players ci = some q ↔
        ∃ k, 1 ≤ k ∧ k < g.players.length ∧
          g.players[(ci + k) % g.players.length]? = some q ∧
          q.has_accused_this_round = false ∧
          ∀ j, 1 ≤ j → j < k → ∀ r,
            g.players[(ci + j) % g.players.length]? = some r →
              r.has_accused_this_round = true)) := by
  have hns : ¬ g.status ≠ GameStatus.END_OF_ROUND_VOTING := by simp [hstatus]
  have hnn : ¬ (g.players.find? (fun p => p.id = voter)).isNone = true := by
    rcases Option.isSome_iff_exists.mp hfind with ⟨q, hq⟩
    simp [hq]
  have hcur1 : Game.current_accusation
      { g with accusations := (modifyLastActive (fun a => { a with votes := dictInsert a.votes voter vote }) g.accusations) } =
      some { acc with votes := dictInsert acc.votes voter vote } := by
    rw [current_accusation_update g
      (fun a => { a with votes := dictInsert a.votes voter vote })
      (fun a => rfl), hacc]
    rfl
  refine ⟨?_, ?_, fun q ci h => findNextAccuser_eq_some_iff h⟩
  · intro ap sp hg haccused hrole hspy
    unfold Game.vote_on_end_of_round_accusation
    rw [if_neg hns, hacc]
    dsimp only
    rw [if_neg hvoter, if_neg hnn]
    rw [if_pos (by simpa [List.length_map] using hlen)]
    unfold Game.resolve_end_of_round_accusation
    rw [hcur1]
    dsimp only
    rw [if_pos (by simp [hg])]
    rw [haccused]
    rw [if_neg (by simp [hrole])]
    dsimp only [Game.end_game]
    refine ⟨rfl, rfl, rfl, ?_⟩
    rw [find?_modifyFirst (fun (p : Player) => decide (some p.id = g.spy_id))
      (fun (p : Player) => { p with points := p.points + 4 }) (fun _ => rfl),
      hspy]
    rfl
  · intro q hng hq
    unfold Game.vote_on_end_of_round_accusation
    rw [if_neg hns, hacc]
    dsimp only
    rw [if_neg hvoter, if_neg hnn]
    rw [if_pos (by simpa [List.length_map] using hlen)]
    unfold Game.resolve_end_of_round_accusation
    rw [hcur1]
    dsimp only
    rw [if_neg (by simp [hng])]
    unfold Game.move_to_next_end_of_round_accuser
    dsimp only
    rw [hq]
    dsimp only
    refine ⟨hstatus, rfl, ?_, rfl, rfl⟩
    rw [activeCount_deactivateLastActive,
      activeCount_modifyLastActive
        (fun a => { a with votes := dictInsert a.votes voter vote })
        (fun a => rfl)]

/-- Witness for `end_of_round_resolution_correct`: in `gEndUnanimous`
A's guilty vote makes the count unanimous against the innocent B, so the
spy A scores +4 and the game ends with INNOCENT_ACCUSED; in `gEndSplit`
the same vote completes a split count and the turn advances to A. -/
theorem end_of_round_resolution_correct_witness :
    ((gEndUnanimous.vote_on_end_of_round_accusation "A" true).2.winner =
        some "spy" ∧
      (gEndUnanimous.vote_on_end_of_round_accusation "A" true).2.end_reason =
        some GameEndReason.INNOCENT_ACCUSED) ∧
    (gEndSplit.vote_on_end_of_round_accusation "A" true).2.current_turn =
      some "A" := by
  constructor
  · have h := (end_of_round_resolution_correct gEndUnanimous "A" true
      { accuser_id := "C", accused_id := "B", votes := [("C", true)], timestamp := 5, is_active := true }
      (by decide) (by decide) (by decide) (by decide) (by decide)).1
      { pB with role := some PlayerRole.INNOCENT }
      { pA with role := some PlayerRole.SPY }
      (by decide) (by decide) (by decide) (by decide)
    exact ⟨h.2.2.1, h.2.1⟩
  · have h := (end_of_round_resolution_correct gEndSplit "A" true
      { accuser_id := "C", accused_id := "B", votes := [("C", false)], timestamp := 5, is_active := true }
      (by decide) (by decide) (by decide) (by decide) (by decide)).2.1
      { pA with role := some PlayerRole.SPY }
      (by decide) (by decide)
    exact h.2.1

theorem length_modifyFirst (p : α → Bool) (f : α → α) :
    ∀ l : List α, (modifyFirst p f l).length = l.length
  | [] => rfl
  | a :: l => by
    by_cases h : p a <;>
      simp [modifyFirst, h, length_modifyFirst p f l]

theorem exists_id_map {l : List Player} {t : String} (f : Player → Player)
    (hf : ∀ a, (f a).id = a.id) (h : ∃ p ∈ l, p.id = t) :
    ∃ p ∈ l.map f, p.id = t := by
  obtain ⟨p, hp, hid⟩ := h
  exact ⟨f p, List.mem_map_of_mem f hp, by rw [hf]; exact hid⟩

theorem exists_id_modifyFirst {l : List Player} {t : String}
    (q : Player → Bool) (f : Player → Player) (hf : ∀ a, (f a).id = a.id)
    (h : ∃ p ∈ l, p.id = t) : ∃ p ∈ modifyFirst q f l, p.id = t := by
  obtain ⟨p, hp, hid⟩ := h
  rcases mem_modifyFirst_of_mem q f l p hp with hm | hm
  · exact ⟨p, hm, hid⟩
  · exact ⟨f p, hm, by rw [hf]; exact hid⟩

theorem turnInv_advance_turn (g : Game) (h0 : g.current_turn ≠ some "") :
    TurnInv g.advance_turn := by
  unfold Game.advance_turn
  split_ifs with h1
  · rcases h1 with h | h | h
    · intro hne; exact absurd (List.isEmpty_iff.mp h) hne
    · intro _ t ht; rw [h] at ht; cases ht
    · exact absurd h h0
  · push_neg at h1
    have hne : g.players ≠ [] := fun he => h1.1 (by simp [he])
    have hlt : (((g.players.findIdx? fun p => decide (some p.id = g.current_turn)).getD 0) + 1)
        % g.players.length < g.players.length :=
      Nat.mod_lt _ (List.length_pos.mpr hne)
    unfold TurnInv
    dsimp only
    cases hget : g.players[(((g.players.findIdx? fun p => decide (some p.id = g.current_turn)).getD 0) + 1) % g.players.length]? with
    | none =>
      exact absurd hget (by simp [List.getElem?_eq_getElem hlt])
    | some p =>
      intro _ t ht
      have ht' : some p.id = some t := ht
      obtain rfl : p.id = t := by injection ht'
      exact ⟨p, List.getElem?_mem hget, rfl⟩

theorem findNextAccuser_mem {ps : List Player} {ci : Nat} {q : Player}
    (h : Game.findNextAccuser ps ci = some q) : q ∈ ps := by
  unfold Game.findNextAccuser at h
  rw [findSome?_eq_some_iff] at h
  obtain ⟨i, -, hb, -⟩ := h
  cases hr : (List.range' 1 (ps.length - 1))[i]? with
  | none => rw [hr] at hb; simp at hb
  | some m =>
    rw [hr] at hb
    simp only [Option.some_bind] at hb
    cases hp : ps[(ci + m) % ps.length]? with
    | none => rw [hp] at hb; simp at hb
    | some r =>
      rw [hp] at hb
      by_cases hacc : r.has_accused_this_round
      · simp [hacc] at hb
      · simp only [hacc, if_false, Bool.false_eq_true] at hb
        obtain rfl : r = q := by injection hb
        exact List.getElem?_mem hp

theorem turnInv_of_map (g g' : Game) (f : Player → Player)
    (hp : g'.players = g.players.map f)
    (hc : g'.current_turn = g.current_turn)
    (hf : ∀ a, (f a).id = a.id)
    (hturn : TurnInv g) : TurnInv g' := by
  intro hne t ht
  rw [hp] at hne ⊢
  rw [hc] at ht
  have hne' : g.players ≠ [] := fun he => hne (by rw [he]; rfl)
  exact exists_id_map f hf (hturn hne' t ht)

theorem turnInv_of_modifyFirst (g g' : Game) (q : Player → Bool)
    (f : Player → Player)
    (hp : g'.players = modifyFirst q f g.players)
    (hc : g'.current_turn = g.current_turn)
    (hf : ∀ a, (f a).id = a.id)
    (hturn : TurnInv g) : TurnInv g' := by
  intro hne t ht
  rw [hp] at hne ⊢
  rw [hc] at ht
  have hne' : g.players ≠ [] := fun he => hne (by rw [he]; rfl)
  exact exists_id_modifyFirst q f hf (hturn hne' t ht)

theorem turnInv_of_same (g g' : Game)
    (hp : g'.players = g.players)
    (hc : g'.current_turn = g.current_turn)
    (hturn : TurnInv g) : TurnInv g' := by
  intro hne t ht
  rw [hp] at hne ⊢
  rw [hc] at ht
  exact hturn hne t ht

theorem strongTurnInv_resolve (g : Game) (now : ℚ)
    (h : StrongTurnInv g) : StrongTurnInv (g.resolve_accusation now) := by
  obtain ⟨hwait, hturn⟩ := h
  unfold Game.resolve_accusation
  cases hacc : g.current_accusation with
  | none => exact ⟨hwait, hturn⟩
  | some acc =>
    dsimp only
    by_cases hg : unanimousGuilty acc.votes
    · rw [if_pos hg]
      cases hfind : g.players.find? (fun p => p.id = acc.accused_id) with
      | none => exact ⟨hwait, hturn⟩
      | some ap =>
        dsimp only
        by_cases hrole : ap.role = some PlayerRole.SPY
        · rw [if_pos hrole]
          refine ⟨fun hw => (nomatch hw), ?_⟩
          refine turnInv_of_map g _ _ rfl rfl (fun a => ?_) hturn
          dsimp only
          split
          · split <;> rfl
          · rfl
        · rw [if_neg hrole]
          refine ⟨fun hw => (nomatch hw), ?_⟩
          exact turnInv_of_modifyFirst g _ _ _ rfl rfl (fun a => rfl) hturn
    · rw [if_neg hg]
      refine ⟨fun hw => (nomatch hw), ?_⟩
      exact turnInv_of_same g _ rfl rfl hturn

theorem strongTurnInv_startEnd (g : Game) :
    StrongTurnInv g.start_end_of_round_voting := by
  unfold Game.start_end_of_round_voting
  dsimp only
  refine ⟨fun hw => (nomatch hw), fun hne t ht => ?_⟩
  cases hh : (g.players.map (fun (p : Player) => { p with has_accused_this_round := false })).head? with
  | none =>
    have ht' : (g.players.map (fun (p : Player) => { p with has_accused_this_round := false })).head?.map (fun (p : Player) => p.id) = some t := ht
    rw [hh] at ht'
    cases ht'
  | some p =>
    have ht' : (g.players.map (fun (p : Player) => { p with has_accused_this_round := false })).head?.map (fun (p : Player) => p.id) = some t := ht
    rw [hh] at ht'
    have ht'' : some p.id = some t := ht'
    obtain rfl : p.id = t := by injection ht''
    exact ⟨p, List.mem_of_mem_head? hh, rfl⟩

theorem strongTurnInv_moveNext (g : Game)
    (hs : g.status ≠ GameStatus.WAITING) (h : StrongTurnInv g) :
    StrongTurnInv g.move_to_next_end_of_round_accuser := by
  obtain ⟨hwait, hturn⟩ := h
  unfold Game.move_to_next_end_of_round_accuser
  dsimp only
  cases hf : Game.findNextAccuser g.players
      ((g.players.findIdx? (fun p => decide (some p.id = g.current_turn))).getD 0) with
  | some q =>
    refine ⟨fun hw => absurd hw hs, fun hne t ht => ?_⟩
    have ht' : some q.id = some t := ht
    obtain rfl : q.id = t := by injection ht'
    exact ⟨q, findNextAccuser_mem hf, rfl⟩
  | none =>
    refine ⟨fun hw => (nomatch hw), ?_⟩
    exact turnInv_of_modifyFirst g _ _ _ rfl rfl (fun a => rfl) hturn

theorem strongTurnInv_resolveEnd (g : Game)
    (hs : g.status ≠ GameStatus.WAITING) (h : StrongTurnInv g) :
    StrongTurnInv g.resolve_end_of_round_accusation := by
  obtain ⟨hwait, hturn⟩ := h
  unfold Game.resolve_end_of_round_accusation
  cases hacc : g.current_accusation with
  | none => exact ⟨hwait, hturn⟩
  | some acc =>
    dsimp only
    by_cases hg : unanimousGuilty acc.votes
    · rw [if_pos hg]
      by_cases hspy : ((g.players.find? (fun p => p.id = acc.accused_id)).any
          (fun accused => accused.role = some PlayerRole.SPY)) = true
      · rw [if_pos hspy]
        refine ⟨fun hw => (nomatch hw), ?_⟩
        refine turnInv_of_map g _ _ rfl rfl (fun a => ?_) hturn
        dsimp only
        split <;> split <;> rfl
      · rw [if_neg hspy]
        refine ⟨fun hw => (nomatch hw), ?_⟩
        exact turnInv_of_modifyFirst g _ _ _ rfl rfl (fun a => rfl) hturn
    · rw [if_neg hg]
      exact strongTurnInv_moveNext g hs ⟨hwait, hturn⟩

theorem advance_turn_status (g : Game) : g.advance_turn.status = g.status := by
  unfold Game.advance_turn
  split
  · rfl
  · dsimp only
    split <;> rfl

theorem strongTurnInv_after_filter (g g1 : Game) (pid : String)
    (hp : g1.players = g.players.filter (fun p => p.id ≠ pid))
    (hc : g1.current_turn = g.current_turn)
    (hs : g1.status = g.status)
    (h0 : g.current_turn ≠ some "")
    (h : StrongTurnInv g) :
    StrongTurnInv
      (if g1.current_turn = some pid then g1.advance_turn else g1) := by
  obtain ⟨hwait, hturn⟩ := h
  by_cases hct : g1.current_turn = some pid
  · rw [if_pos hct]
    refine ⟨fun hw => ?_, turnInv_advance_turn g1 (by rw [hc]; exact h0)⟩
    rw [advance_turn_status g1, hs] at hw
    have hnone : g1.current_turn = none := hc.trans (hwait hw)
    rw [hnone] at hct
    cases hct
  · rw [if_neg hct]
    refine ⟨fun hw => hc.trans (hwait (hs ▸ hw)), fun hne t ht => ?_⟩
    rw [hp] at hne ⊢
    rw [hc] at ht
    have hgne : g.players ≠ [] := fun he => hne (by rw [he]; rfl)
    obtain ⟨p, hpmem, hpid⟩ := hturn hgne t ht
    have htne : t ≠ pid := fun he => hct (by rw [hc, ht, he])
    refine ⟨p, List.mem_filter.mpr ⟨hpmem, by simpa [hpid] using htne⟩, hpid⟩

theorem strongTurnInv_end_game_ite (g : Game) (c : Prop) [Decidable c]
    (r : GameEndReason) (w : String) (h : StrongTurnInv g) :
    StrongTurnInv (if c then g.end_game r w else g) := by
  by_cases hc : c
  · rw [if_pos hc]
    exact ⟨fun hw => (nomatch hw), turnInv_of_same g _ rfl rfl h.2⟩
  · rw [if_neg hc]; exact h

theorem strongTurnInv_step (g : Game) (a : Action)
    (hInv : StrongTurnInv g) (h0 : g.current_turn ≠ some "")
    (hwf : a.targetsValid g = true) :
    StrongTurnInv (Action.apply g a).2 := by
  obtain ⟨hwait, hturn⟩ := hInv
  cases a with
  | addPlayer p =>
    simp only [Action.apply]
    unfold Game.add_player
    split_ifs with h1 h2 h3
    · exact ⟨hwait, hturn⟩
    · exact ⟨hwait, hturn⟩
    · exact ⟨hwait, hturn⟩
    · push_neg at h2
      refine ⟨fun _ => hwait h2, fun hne t ht => ?_⟩
      have ht' : g.current_turn = some t := ht
      rw [hwait h2] at ht'
      cases ht'
  | removePlayer pid =>
    simp only [Action.apply]
    unfold Game.remove_player
    dsimp only
    exact strongTurnInv_end_game_ite _ _ _ _
      (strongTurnInv_after_filter g
        { g with players := g.players.filter (fun p => p.id ≠ pid) } pid
        rfl rfl rfl h0 ⟨hwait, hturn⟩)
  | startGame ro orderO spyO locO rolesO fallbackO now =>
    simp only [Action.apply]
    unfold Game.start_game
    split_ifs with h1 h2 h3 <;>
      [exact ⟨hwait, hturn⟩; exact ⟨hwait, hturn⟩; skip; skip] <;>
    · dsimp only
      split
      · rename_i heq
        exact ⟨fun hw => (nomatch hw), fun hne t ht => absurd heq hne⟩
      · rename_i p l heq
        refine ⟨fun hw => (nomatch hw), fun hne t ht => ?_⟩
        have ht' : some p.id = some t := ht
        obtain rfl : p.id = t := by injection ht'
        rw [heq]
        exact ⟨p, List.mem_cons_self p l, rfl⟩
  | askQuestion f t c now =>
    simp only [Action.apply]
    unfold Game.ask_question
    split
    · exact ⟨hwait, hturn⟩
    · split
      · exact ⟨hwait, hturn⟩
      · split
        · exact ⟨hwait, hturn⟩
        · rename_i h1 h2 h3
          push_neg at h1
          refine ⟨fun hw => ?_, fun hne t' ht' => ?_⟩
          · have hw' : g.status = GameStatus.WAITING := hw
            rw [h1.1] at hw'
            exact (nomatch hw')
          · have ht'' : some t = some t' := ht'
            obtain rfl : t = t' := by injection ht''
            have hwf' : g.players.any (fun p => p.id = t) = true := hwf
            obtain ⟨p, hp, hid⟩ := List.any_eq_true.mp hwf'
            exact ⟨p, hp, by simpa using hid⟩
  | giveAnswer f c now =>
    simp only [Action.apply]
    unfold Game.give_answer
    split
    · exact ⟨hwait, hturn⟩
    · split
      · exact ⟨hwait, hturn⟩
      · exact ⟨hwait, hturn⟩
  | stopClockForAccusation x y now =>
    simp only [Action.apply]
    unfold Game.stop_clock_for_accusation
    split
    · exact ⟨hwait, hturn⟩
    · split
      · exact ⟨hwait, hturn⟩
      · split
        · exact ⟨hwait, hturn⟩
        · refine ⟨fun hw => (nomatch hw), ?_⟩
          exact turnInv_of_modifyFirst g _ _ _ rfl rfl (fun a => rfl) hturn
  | voteOnAccusation v b now =>
    simp only [Action.apply]
    unfold Game.vote_on_accusation
    split
    · exact ⟨hwait, hturn⟩
    · split
      · exact ⟨hwait, hturn⟩
      · split
        · exact ⟨hwait, hturn⟩
        · dsimp only
          split
          · exact strongTurnInv_resolve _ now ⟨hwait, hturn⟩
          · exact ⟨hwait, hturn⟩
  | spyGuessLocation s l =>
    simp only [Action.apply]
    unfold Game.spy_guess_location
    split
    · exact ⟨hwait, hturn⟩
    · split
      · exact ⟨hwait, hturn⟩
      · split
        · exact ⟨hwait, hturn⟩
        · split
          · exact ⟨hwait, hturn⟩
          · split
            · refine ⟨fun hw => (nomatch hw), ?_⟩
              exact turnInv_of_modifyFirst g _ _ _ rfl rfl (fun a => rfl) hturn
            · refine ⟨fun hw => (nomatch hw), ?_⟩
              refine turnInv_of_map g _ _ rfl rfl (fun a => ?_) hturn
              dsimp only
              split <;> rfl
  | checkTimeExpired now =>
    simp only [Action.apply]
    unfold Game.check_time_expired
    split
    · exact ⟨hwait, hturn⟩
    · split
      · dsimp only
        split
        · exact strongTurnInv_startEnd _
        · exact ⟨hwait, hturn⟩
  | makeEndOfRoundAccusation x y now =>
    simp only [Action.apply]
    unfold Game.make_end_of_round_accusation
    split
    · exact ⟨hwait, hturn⟩
    · rename_i hstat
      split
      · exact ⟨hwait, hturn⟩
      · split
        · exact ⟨hwait, hturn⟩
        · split
          · exact ⟨hwait, hturn⟩
          · split
            · exact ⟨hwait, hturn⟩
            · refine ⟨fun hw => ?_, ?_⟩
              · have hw' : g.status = GameStatus.WAITING := hw
                rw [not_not.mp hstat] at hw'
                exact (nomatch hw')
              · exact turnInv_of_modifyFirst g _ _ _ rfl rfl (fun a => rfl) hturn
  | voteOnEndOfRoundAccusation v b =>
    simp only [Action.apply]
    unfold Game.vote_on_end_of_round_accusation
    split
    · exact ⟨hwait, hturn⟩
    · rename_i hstat
      split
      · exact ⟨hwait, hturn⟩
      · split
        · exact ⟨hwait, hturn⟩
        · split
          · exact ⟨hwait, hturn⟩
          · dsimp only
            split
            · refine strongTurnInv_resolveEnd _ ?_ ⟨hwait, hturn⟩
              intro hww
              have hww' : g.status = GameStatus.WAITING := hww
              rw [not_not.mp hstat] at hww'
              exact (nomatch hww')
            · exact ⟨hwait, hturn⟩

theorem mem_of_mem_modifyFirst (q : α → Bool) (f : α → α) (l : List α) (x : α)
    (hx : x ∈ modifyFirst q f l) : x ∈ l ∨ ∃ p ∈ l, x = f p := by
  induction l with
  | nil => cases hx
  | cons a rest ih =>
    unfold modifyFirst at hx
    by_cases hqa : q a = true
    · rw [if_pos hqa] at hx
      rcases List.mem_cons.mp hx with h | h
      · exact Or.inr ⟨a, List.mem_cons_self a rest, h⟩
      · exact Or.inl (List.mem_cons_of_mem a h)
    · rw [if_neg hqa] at hx
      rcases List.mem_cons.mp hx with h | h
      · exact Or.inl (h ▸ List.mem_cons_self a rest)
      · rcases ih h with h' | ⟨p, hp, he⟩
        · exact Or.inl (List.mem_cons_of_mem a h')
        · exact Or.inr ⟨p, List.mem_cons_of_mem a hp, he⟩

theorem mem_permuteBy (o : List Nat) (l : List α) (x : α)
    (hx : x ∈ permuteBy o l) : x ∈ l := by
  unfold permuteBy at hx
  split at hx
  · obtain ⟨i, -, hi⟩ := List.mem_filterMap.mp hx
    exact List.getElem?_mem hi
  · exact hx

theorem foldl_players_mem (f : List String × List Nat × List Player →
      Player → List String × List Nat × List Player)
    (hf : ∀ st p q, q ∈ (f st p).2.2 → q ∈ st.2.2 ∨ q.id = p.id) :
    ∀ (ps : List Player) (st : List String × List Nat × List Player)
      (q : Player), q ∈ (ps.foldl f st).2.2 → q ∈ st.2.2 ∨ ∃ p ∈ ps, q.id = p.id
  | [], _, _, hq => Or.inl hq
  | p :: ps, st, q, hq => by
    rcases foldl_players_mem f hf ps (f st p) q hq with h | ⟨r, hr, he⟩
    · rcases hf st p q h with h' | h'
      · exact Or.inl h'
      · exact Or.inr ⟨p, List.mem_cons_self p ps, h'⟩
    · exact Or.inr ⟨r, List.mem_cons_of_mem p hr, he⟩

theorem assign_roles_current_turn (g : Game) (a b : Nat) (c d : List Nat) :
    (g.assign_roles a b c d).current_turn = g.current_turn := by
  unfold Game.assign_roles
  split <;> rfl

theorem assign_roles_mem_id (g : Game) (spyO locO : Nat)
    (rolesO fallbackO : List Nat) (q : Player)
    (hq : q ∈ (g.assign_roles spyO locO rolesO fallbackO).players) :
    ∃ p ∈ g.players, q.id = p.id := by
  unfold Game.assign_roles at hq
  revert hq
  cases hsp : g.players[spyO % g.players.length]? with
  | none => exact fun hq => ⟨q, hq, rfl⟩
  | some spyPlayer =>
    intro hq
    dsimp only at hq
    refine Or.elim (foldl_players_mem _ ?_ _ _ q hq)
      (fun hfalse => (nomatch hfalse)) ?_
    · intro st p r hr
      obtain ⟨avail, fbs, acc⟩ := st
      dsimp only at hr
      split at hr
      · split at hr
        · rcases List.mem_append.mp hr with h | h
          · exact Or.inl h
          · have : r = _ := List.mem_singleton.mp h
            exact Or.inr (by rw [this])
        · rcases List.mem_append.mp hr with h | h
          · exact Or.inl h
          · have : r = _ := List.mem_singleton.mp h
            exact Or.inr (by rw [this])
      · rcases List.mem_append.mp hr with h | h
        · exact Or.inl h
        · have : r = p := List.mem_singleton.mp h
          exact Or.inr (by rw [this])
    · rintro ⟨p, hp, he⟩
      rcases List.mem_or_eq_of_mem_set hp with hp' | rfl
      · exact ⟨p, hp', he⟩
      · exact ⟨spyPlayer, List.getElem?_mem hsp, he⟩

theorem nonemptyIdInv_of_map (g g1 : Game) (f : Player → Player)
    (hp : g1.players = g.players.map f)
    (hc : g1.current_turn = g.current_turn)
    (hf : ∀ a, (f a).id = a.id)
    (h : NonemptyIdInv g) : NonemptyIdInv g1 := by
  refine ⟨fun p hp' => ?_, hc ▸ h.2⟩
  rw [hp] at hp'
  obtain ⟨q, hq, rfl⟩ := List.mem_map.mp hp'
  rw [hf]
  exact h.1 q hq

theorem nonemptyIdInv_of_modifyFirst (g g1 : Game) (q : Player → Bool)
    (f : Player → Player)
    (hp : g1.players = modifyFirst q f g.players)
    (hc : g1.current_turn = g.current_turn)
    (hf : ∀ a, (f a).id = a.id)
    (h : NonemptyIdInv g) : NonemptyIdInv g1 := by
  refine ⟨fun p hp' => ?_, hc ▸ h.2⟩
  rw [hp] at hp'
  rcases mem_of_mem_modifyFirst q f g.players p hp' with hm | ⟨r, hr, rfl⟩
  · exact h.1 p hm
  · rw [hf]
    exact h.1 r hr

theorem nonemptyIdInv_of_same (g g1 : Game)
    (hp : g1.players = g.players)
    (hc : g1.current_turn = g.current_turn)
    (h : NonemptyIdInv g) : NonemptyIdInv g1 :=
  ⟨fun p hp' => h.1 p (hp ▸ hp'), hc ▸ h.2⟩

theorem nonemptyIdInv_advance_turn (g : Game) (h : NonemptyIdInv g) :
    NonemptyIdInv g.advance_turn := by
  unfold Game.advance_turn
  split_ifs with h1
  · exact h
  · push_neg at h1
    have hne : g.players ≠ [] := fun he => h1.1 (by simp [he])
    have hlt : (((g.players.findIdx? fun p => decide (some p.id = g.current_turn)).getD 0) + 1)
        % g.players.length < g.players.length :=
      Nat.mod_lt _ (List.length_pos.mpr hne)
    unfold NonemptyIdInv
    dsimp only
    cases hget : g.players[(((g.players.findIdx? fun p => decide (some p.id = g.current_turn)).getD 0) + 1) % g.players.length]? with
    | none =>
      exact absurd hget (by simp [List.getElem?_eq_getElem hlt])
    | some p =>
      refine ⟨fun r hr => h.1 r hr, fun hcc => ?_⟩
      have hpid : p.id = "" := by
        have hcc' : some p.id = some "" := hcc
        injection hcc'
      exact h.1 p (List.getElem?_mem hget) hpid

theorem nonemptyIdInv_end_game_ite (g : Game) (c : Prop) [Decidable c]
    (r : GameEndReason) (w : String) (h : NonemptyIdInv g) :
    NonemptyIdInv (if c then g.end_game r w else g) := by
  by_cases hc : c
  · rw [if_pos hc]
    exact nonemptyIdInv_of_same g _ rfl rfl h
  · rw [if_neg hc]
    exact h

theorem nonemptyIdInv_after_filter (g g1 : Game) (pid : String)
    (hp : g1.players = g.players.filter (fun p => p.id ≠ pid))
    (hc : g1.current_turn = g.current_turn)
    (h : NonemptyIdInv g) :
    NonemptyIdInv
      (if g1.current_turn = some pid then g1.advance_turn else g1) := by
  have h1 : NonemptyIdInv g1 := by
    refine ⟨fun p hp' => ?_, hc ▸ h.2⟩
    rw [hp] at hp'
    exact h.1 p (List.mem_filter.mp hp').1
  by_cases hct : g1.current_turn = some pid
  · rw [if_pos hct]
    exact nonemptyIdInv_advance_turn g1 h1
  · rw [if_neg hct]
    exact h1

theorem nonemptyIdInv_resolve (g : Game) (now : ℚ) (h : NonemptyIdInv g) :
    NonemptyIdInv (g.resolve_accusation now) := by
  unfold Game.resolve_accusation
  cases hacc : g.current_accusation with
  | none => exact h
  | some acc =>
    dsimp only
    by_cases hg : unanimousGuilty acc.votes
    · rw [if_pos hg]
      cases hfind : g.players.find? (fun p => p.id = acc.accused_id) with
      | none => exact h
      | some ap =>
        dsimp only
        by_cases hrole : ap.role = some PlayerRole.SPY
        · rw [if_pos hrole]
          refine nonemptyIdInv_of_map g _ _ rfl rfl (fun a => ?_) h
          dsimp only
          split
          · split <;> rfl
          · rfl
        · rw [if_neg hrole]
          exact nonemptyIdInv_of_modifyFirst g _ _ _ rfl rfl (fun a => rfl) h
    · rw [if_neg hg]
      exact nonemptyIdInv_of_same g _ rfl rfl h

theorem nonemptyIdInv_startEnd (g : Game) (h : NonemptyIdInv g) :
    NonemptyIdInv g.start_end_of_round_voting := by
  unfold Game.start_end_of_round_voting
  dsimp only
  have hmem : ∀ p ∈ (g.players.map (fun (p : Player) =>
      { p with has_accused_this_round := false })), p.id ≠ "" := by
    intro p hp
    obtain ⟨q, hq, rfl⟩ := List.mem_map.mp hp
    exact h.1 q hq
  refine ⟨hmem, ?_⟩
  cases hh : (g.players.map (fun (p : Player) => { p with has_accused_this_round := false })).head? with
  | none =>
    intro hcc
    exact (nomatch hcc)
  | some p =>
    intro hcc
    have hpid : p.id = "" := by
      have hcc' : some p.id = some "" := hcc
      injection hcc'
    exact hmem p (List.mem_of_mem_head? hh) hpid

theorem nonemptyIdInv_moveNext (g : Game) (h : NonemptyIdInv g) :
    NonemptyIdInv g.move_to_next_end_of_round_accuser := by
  unfold Game.move_to_next_end_of_round_accuser
  dsimp only
  cases hf : Game.findNextAccuser g.players
      ((g.players.findIdx? (fun p => decide (some p.id = g.current_turn))).getD 0) with
  | some q =>
    refine ⟨fun p hp => h.1 p hp, fun hcc => ?_⟩
    have hqid : q.id = "" := by
      have hcc' : some q.id = some "" := hcc
      injection hcc'
    exact h.1 q (findNextAccuser_mem hf) hqid
  | none =>
    exact nonemptyIdInv_of_modifyFirst g _ _ _ rfl rfl (fun a => rfl) h

theorem nonemptyIdInv_resolveEnd (g : Game) (h : NonemptyIdInv g) :
    NonemptyIdInv g.resolve_end_of_round_accusation := by
  unfold Game.resolve_end_of_round_accusation
  cases hacc : g.current_accusation with
  | none => exact h
  | some acc =>
    dsimp only
    by_cases hg : unanimousGuilty acc.votes
    · rw [if_pos hg]
      by_cases hspy : ((g.players.find? (fun p => p.id = acc.accused_id)).any
          (fun accused => accused.role = some PlayerRole.SPY)) = true
      · rw [if_pos hspy]
        refine nonemptyIdInv_of_map g _ _ rfl rfl (fun a => ?_) h
        dsimp only
        split <;> split <;> rfl
      · rw [if_neg hspy]
        exact nonemptyIdInv_of_modifyFirst g _ _ _ rfl rfl (fun a => rfl) h
    · rw [if_neg hg]
      exact nonemptyIdInv_moveNext g h

theorem nonemptyIdInv_step (g : Game) (a : Action)
    (h : NonemptyIdInv g) (hwf : a.targetsValid g = true) :
    NonemptyIdInv (Action.apply g a).2 := by
  cases a with
  | addPlayer p =>
    simp only [Action.apply]
    unfold Game.add_player
    split_ifs with h1 h2 h3
    · exact h
    · exact h
    · exact h
    · refine ⟨fun q hq => ?_, h.2⟩
      rcases List.mem_append.mp hq with hq' | hq'
      · exact h.1 q hq'
      · have hqp : q = p := List.mem_singleton.mp hq'
        rw [hqp]
        have hwf' : decide (p.id ≠ "") = true := hwf
        exact of_decide_eq_true hwf'
  | removePlayer pid =>
    simp only [Action.apply]
    unfold Game.remove_player
    dsimp only
    exact nonemptyIdInv_end_game_ite _ _ _ _
      (nonemptyIdInv_after_filter g
        { g with players := g.players.filter (fun p => p.id ≠ pid) } pid
        rfl rfl h)
  | startGame ro orderO spyO locO rolesO fallbackO now =>
    simp only [Action.apply]
    unfold Game.start_game
    split_ifs with h1 h2 h3
    · exact h
    · exact h
    · dsimp only
      have hmem : ∀ q ∈ (Game.assign_roles
          { g with players := permuteBy orderO g.players }
          spyO locO rolesO fallbackO).players, q.id ≠ "" := by
        intro q hq
        obtain ⟨p, hp, he⟩ := assign_roles_mem_id _ spyO locO rolesO fallbackO q hq
        rw [he]
        exact h.1 p (mem_permuteBy orderO g.players p hp)
      split
      · refine ⟨fun q hq => hmem q hq, fun hcc => ?_⟩
        refine h.2 ?_
        rw [← assign_roles_current_turn
          { g with players := permuteBy orderO g.players } spyO locO rolesO fallbackO]
        exact hcc
      · rename_i p l heq
        refine ⟨fun q hq => hmem q hq, fun hcc => ?_⟩
        have hpid : p.id = "" := by
          have hcc' : some p.id = some "" := hcc
          injection hcc'
        exact hmem p (by rw [heq]; exact List.mem_cons_self p l) hpid
    · dsimp only
      have hmem : ∀ q ∈ (Game.assign_roles g spyO locO rolesO fallbackO).players,
          q.id ≠ "" := by
        intro q hq
        obtain ⟨p, hp, he⟩ := assign_roles_mem_id g spyO locO rolesO fallbackO q hq
        rw [he]
        exact h.1 p hp
      split
      · refine ⟨fun q hq => hmem q hq, fun hcc => ?_⟩
        refine h.2 ?_
        rw [← assign_roles_current_turn g spyO locO rolesO fallbackO]
        exact hcc
      · rename_i p l heq
        refine ⟨fun q hq => hmem q hq, fun hcc => ?_⟩
        have hpid : p.id = "" := by
          have hcc' : some p.id = some "" := hcc
          injection hcc'
        exact hmem p (by rw [heq]; exact List.mem_cons_self p l) hpid
  | askQuestion f t c now =>
    simp only [Action.apply]
    unfold Game.ask_question
    split
    · exact h
    · split
      · exact h
      · split
        · exact h
        · refine ⟨fun q hq => h.1 q hq, fun hcc => ?_⟩
          have hwf' : g.players.any (fun p => p.id = t) = true := hwf
          obtain ⟨p, hp, hid⟩ := List.any_eq_true.mp hwf'
          have hid' : p.id = t := by simpa using hid
          have ht0 : t = "" := by
            have hcc' : some t = some "" := hcc
            injection hcc'
          exact h.1 p hp (by rw [hid', ht0])
  | giveAnswer f c now =>
    simp only [Action.apply]
    unfold Game.give_answer
    split
    · exact h
    · split
      · exact h
      · exact nonemptyIdInv_of_same g _ rfl rfl h
  | stopClockForAccusation x y now =>
    simp only [Action.apply]
    unfold Game.stop_clock_for_accusation
    split
    · exact h
    · split
      · exact h
      · split
        · exact h
        · exact nonemptyIdInv_of_modifyFirst g _ _ _ rfl rfl (fun a => rfl) h
  | voteOnAccusation v b now =>
    simp only [Action.apply]
    unfold Game.vote_on_accusation
    split
    · exact h
    · split
      · exact h
      · split
        · exact h
        · dsimp only
          split
          · exact nonemptyIdInv_resolve _ now
              (nonemptyIdInv_of_same g _ rfl rfl h)
          · exact nonemptyIdInv_of_same g _ rfl rfl h
  | spyGuessLocation s l =>
    simp only [Action.apply]
    unfold Game.spy_guess_location
    split
    · exact h
    · split
      · exact h
      · split
        · exact h
        · split
          · exact h
          · split
            · exact nonemptyIdInv_of_modifyFirst g _ _ _ rfl rfl (fun a => rfl) h
            · refine nonemptyIdInv_of_map g _ _ rfl rfl (fun a => ?_) h
              dsimp only
              split <;> rfl
  | checkTimeExpired now =>
    simp only [Action.apply]
    unfold Game.check_time_expired
    split
    · exact h
    · split
      · dsimp only
        split
        · exact nonemptyIdInv_startEnd _
            (nonemptyIdInv_of_same g _ rfl rfl h)
        · exact nonemptyIdInv_of_same g _ rfl rfl h
  | makeEndOfRoundAccusation x y now =>
    simp only [Action.apply]
    unfold Game.make_end_of_round_accusation
    split
    · exact h
    · split
      · exact h
      · split
        · exact h
        · split
          · exact h
          · split
            · exact h
            · exact nonemptyIdInv_of_modifyFirst g _ _ _ rfl rfl (fun a => rfl) h
  | voteOnEndOfRoundAccusation v b =>
    simp only [Action.apply]
    unfold Game.vote_on_end_of_round_accusation
    split
    · exact h
    · split
      · exact h
      · split
        · exact h
        · split
          · exact h
          · dsimp only
            split
            · exact nonemptyIdInv_resolveEnd _
                (nonemptyIdInv_of_same g _ rfl rfl h)
            · exact nonemptyIdInv_of_same g _ rfl rfl h

theorem assign_roles_accusations (g : Game) (a b : Nat) (c d : List Nat) :
    (g.assign_roles a b c d).accusations = g.accusations := by
  unfold Game.assign_roles
  split <;> rfl

theorem accInv_resolve (g : Game) (now : ℚ)
    (hst : g.status = GameStatus.VOTING) (hI : AccusationInv g) :
    AccusationInv (g.resolve_accusation now) := by
  obtain ⟨h1, h2, h3, h4⟩ := hI
  unfold Game.resolve_accusation
  cases hacc : g.current_accusation with
  | none =>
    exact ⟨h1, fun hw => absurd (hw.symm.trans hst) (by decide),
      fun hip => absurd (hip.symm.trans hst) (by decide),
      fun hE => absurd (hE.symm.trans hst) (by decide)⟩
  | some acc =>
    dsimp only
    have hpos := activeCount_pos_of_getLast?_filter (l := g.accusations) hacc
    by_cases hg : unanimousGuilty acc.votes
    · rw [if_pos hg]
      cases hfind : g.players.find? (fun p => p.id = acc.accused_id) with
      | none =>
        exact ⟨h1, fun hw => absurd (hw.symm.trans hst) (by decide),
          fun hip => absurd (hip.symm.trans hst) (by decide),
          fun hE => absurd (hE.symm.trans hst) (by decide)⟩
      | some ap =>
        dsimp only
        by_cases hrole : ap.role = some PlayerRole.SPY
        · rw [if_pos hrole]
          exact ⟨h1, fun hw => (nomatch hw), fun hip => (nomatch hip),
            fun hE => (nomatch hE)⟩
        · rw [if_neg hrole]
          exact ⟨h1, fun hw => (nomatch hw), fun hip => (nomatch hip),
            fun hE => (nomatch hE)⟩
    · rw [if_neg hg]
      have hz : activeCount (deactivateLastActive g.accusations) = 0 := by
        rw [activeCount_deactivateLastActive]; omega
      exact ⟨Nat.le_trans (le_of_eq hz) (Nat.zero_le 1),
        fun hw => (nomatch hw), fun _ => hz, fun hE => (nomatch hE)⟩

theorem accInv_startEnd (g : Game) (hz : activeCount g.accusations = 0) :
    AccusationInv g.start_end_of_round_voting := by
  unfold Game.start_end_of_round_voting
  dsimp only
  have hz' : activeCount (deactivateLastActive g.accusations) = 0 := by
    rw [activeCount_deactivateLastActive, hz]
  refine ⟨Nat.le_trans (le_of_eq hz') (Nat.zero_le 1),
    fun hw => (nomatch hw), fun hip => (nomatch hip), fun _ h1le => ?_⟩
  have h1le' : 1 ≤ activeCount (deactivateLastActive g.accusations) := h1le
  rw [hz'] at h1le'
  exact absurd h1le' (by decide)

theorem accInv_resolveEnd (g : Game)
    (hst : g.status = GameStatus.END_OF_ROUND_VOTING) (hI : AccusationInv g) :
    AccusationInv g.resolve_end_of_round_accusation := by
  obtain ⟨h1, h2, h3, h4⟩ := hI
  unfold Game.resolve_end_of_round_accusation
  cases hacc : g.current_accusation with
  | none =>
    exact ⟨h1, fun hw => absurd (hw.symm.trans hst) (by decide),
      fun hip => absurd (hip.symm.trans hst) (by decide), h4⟩
  | some acc =>
    dsimp only
    have hpos := activeCount_pos_of_getLast?_filter (l := g.accusations) hacc
    by_cases hg : unanimousGuilty acc.votes
    · rw [if_pos hg]
      by_cases hspy : ((g.players.find? (fun p => p.id = acc.accused_id)).any
          (fun accused => accused.role = some PlayerRole.SPY)) = true
      · rw [if_pos hspy]
        exact ⟨h1, fun hw => (nomatch hw), fun hip => (nomatch hip),
          fun hE => (nomatch hE)⟩
      · rw [if_neg hspy]
        exact ⟨h1, fun hw => (nomatch hw), fun hip => (nomatch hip),
          fun hE => (nomatch hE)⟩
    · rw [if_neg hg]
      unfold Game.move_to_next_end_of_round_accuser
      dsimp only
      have hz : activeCount (deactivateLastActive g.accusations) = 0 := by
        rw [activeCount_deactivateLastActive]; omega
      cases hf : Game.findNextAccuser g.players
          ((g.players.findIdx? (fun p => decide (some p.id = g.current_turn))).getD 0) with
      | some q =>
        refine ⟨Nat.le_trans (le_of_eq hz) (Nat.zero_le 1),
          fun hw => absurd (hw.symm.trans hst) (by decide),
          fun hip => absurd (hip.symm.trans hst) (by decide),
          fun _ h1le => ?_⟩
        have h1le' : 1 ≤ activeCount (deactivateLastActive g.accusations) := h1le
        rw [hz] at h1le'
        exact absurd h1le' (by decide)
      | none =>
        exact ⟨Nat.le_trans (le_of_eq hz) (Nat.zero_le 1),
          fun hw => (nomatch hw), fun hip => (nomatch hip),
          fun hE => (nomatch hE)⟩

theorem accInv_step (g : Game) (a : Action) (hI : AccusationInv g)
    (hr : a.isRemovePlayer = false) :
    AccusationInv (Action.apply g a).2 := by
  obtain ⟨h1, h2, h3, h4⟩ := hI
  cases a with
  | removePlayer pid => simp [Action.isRemovePlayer] at hr
  | addPlayer p =>
    simp only [Action.apply]
    unfold Game.add_player
    split_ifs with hg1 hg2 hg3
    · exact ⟨h1, h2, h3, h4⟩
    · exact ⟨h1, h2, h3, h4⟩
    · exact ⟨h1, h2, h3, h4⟩
    · push_neg at hg2
      exact ⟨h1, fun hw => h2 hw, fun hip => h3 hip,
        fun hE => absurd (hg2.symm.trans hE) (by decide)⟩
  | startGame ro orderO spyO locO rolesO fallbackO now =>
    simp only [Action.apply]
    unfold Game.start_game
    split_ifs with hg1 hg2 hg3 <;>
      [exact ⟨h1, h2, h3, h4⟩; exact ⟨h1, h2, h3, h4⟩; skip; skip] <;>
    · push_neg at hg2
      dsimp only
      split
      all_goals (
        refine ⟨?_, fun hw => (nomatch hw), fun _ => ?_, fun hE => (nomatch hE)⟩ <;>
        · simp only [assign_roles_accusations]
          have hz := h2 hg2
          omega)
  | askQuestion f t c now =>
    simp only [Action.apply]
    unfold Game.ask_question
    split
    · exact ⟨h1, h2, h3, h4⟩
    · rename_i hg1
      push_neg at hg1
      split
      · exact ⟨h1, h2, h3, h4⟩
      · split
        · exact ⟨h1, h2, h3, h4⟩
        · exact ⟨h1, fun hw => absurd (hw.symm.trans hg1.1) (by decide),
            fun _ => h3 hg1.1,
            fun hE => absurd (hE.symm.trans hg1.1) (by decide)⟩
  | giveAnswer f c now =>
    simp only [Action.apply]
    unfold Game.give_answer
    split
    · exact ⟨h1, h2, h3, h4⟩
    · rename_i hg1
      push_neg at hg1
      split
      · exact ⟨h1, h2, h3, h4⟩
      · exact ⟨h1, fun hw => absurd (hw.symm.trans hg1.1) (by decide),
          fun _ => h3 hg1.1,
          fun hE => absurd (hE.symm.trans hg1.1) (by decide)⟩
  | stopClockForAccusation x y now =>
    simp only [Action.apply]
    unfold Game.stop_clock_for_accusation
    split
    · exact ⟨h1, h2, h3, h4⟩
    · rename_i hg1
      push_neg at hg1
      split
      · exact ⟨h1, h2, h3, h4⟩
      · split
        · exact ⟨h1, h2, h3, h4⟩
        · have hz : activeCount g.accusations = 0 := h3 hg1.1
          have hone : activeCount (g.accusations ++
              [({ accuser_id := x, accused_id := y, timestamp := now } : Accusation)]) = 1 := by
            rw [activeCount_append, hz]
            rfl
          exact ⟨Nat.le_of_eq hone, fun hw => (nomatch hw),
            fun hip => (nomatch hip), fun hE => (nomatch hE)⟩
  | voteOnAccusation v b now =>
    simp only [Action.apply]
    unfold Game.vote_on_accusation
    split
    · exact ⟨h1, h2, h3, h4⟩
    · rename_i hg1
      have hst : g.status = GameStatus.VOTING := not_not.mp hg1
      cases hacc : g.current_accusation with
      | none => exact ⟨h1, h2, h3, h4⟩
      | some acc =>
        dsimp only
        split
        · exact ⟨h1, h2, h3, h4⟩
        · have hc1 : activeCount (modifyLastActive
              (fun a => { a with votes := dictInsert a.votes v b })
              g.accusations) = activeCount g.accusations :=
            activeCount_modifyLastActive
                (fun a => { a with votes := dictInsert a.votes v b })
                (fun a => rfl) g.accusations
          have hIg1 : AccusationInv { g with accusations := (modifyLastActive (fun a => { a with votes := dictInsert a.votes v b }) g.accusations) } :=
            ⟨Nat.le_trans (le_of_eq hc1) h1,
              fun hw => absurd (hw.symm.trans hst) (by decide),
              fun hip => absurd (hip.symm.trans hst) (by decide),
              fun hE => absurd (hE.symm.trans hst) (by decide)⟩
          split
          · exact accInv_resolve _ now hst hIg1
          · exact hIg1
  | spyGuessLocation s l =>
    simp only [Action.apply]
    unfold Game.spy_guess_location
    split
    · exact ⟨h1, h2, h3, h4⟩
    · split
      · exact ⟨h1, h2, h3, h4⟩
      · split
        · exact ⟨h1, h2, h3, h4⟩
        · split
          · exact ⟨h1, h2, h3, h4⟩
          · split
            · exact ⟨h1, fun hw => (nomatch hw), fun hip => (nomatch hip),
                fun hE => (nomatch hE)⟩
            · exact ⟨h1, fun hw => (nomatch hw), fun hip => (nomatch hip),
                fun hE => (nomatch hE)⟩
  | checkTimeExpired now =>
    simp only [Action.apply]
    unfold Game.check_time_expired
    split
    · exact ⟨h1, h2, h3, h4⟩
    · rename_i hg1
      push_neg at hg1
      split
      · dsimp only
        split
        · exact accInv_startEnd _ (h3 hg1.1)
        · exact ⟨h1, h2, h3, h4⟩
  | makeEndOfRoundAccusation x y now =>
    simp only [Action.apply]
    unfold Game.make_end_of_round_accusation
    split
    · exact ⟨h1, h2, h3, h4⟩
    · rename_i hg1
      have hst : g.status = GameStatus.END_OF_ROUND_VOTING := not_not.mp hg1
      split
      · exact ⟨h1, h2, h3, h4⟩
      · rename_i hg2
        have hct : g.current_turn = some x := (not_not.mp hg2).symm
        split
        · exact ⟨h1, h2, h3, h4⟩
        · split
          · exact ⟨h1, h2, h3, h4⟩
          · rename_i accP hfind
            split
            · exact ⟨h1, h2, h3, h4⟩
            · rename_i hflag'
              have hcongr : ∀ q : Player,
                  (decide (some q.id = g.current_turn)) = decide (q.id = x) := by
                intro q
                rw [hct]
                exact decide_eq_decide.mpr (by simp)
              have hzero : activeCount g.accusations = 0 := by
                by_contra hnz
                have h1le : 1 ≤ activeCount g.accusations :=
                  Nat.one_le_iff_ne_zero.mpr hnz
                have hfp : g.players.find?
                    (fun q => decide (some q.id = g.current_turn)) = some accP := by
                  rw [find?_congr hcongr g.players]
                  exact hfind
                exact hflag' (h4 hst h1le accP hfp)
              have hone : activeCount (g.accusations ++
                  [({ accuser_id := x, accused_id := y, votes := [], timestamp := now, is_active := true } : Accusation)]) = 1 := by
                rw [activeCount_append, hzero]
                rfl
              refine ⟨Nat.le_of_eq hone,
                fun hw => absurd (hw.symm.trans hst) (by decide),
                fun hip => absurd (hip.symm.trans hst) (by decide),
                fun _ _ p hfp => ?_⟩
              have hfp' : (modifyFirst (fun q => decide (q.id = x))
                  (fun q => { q with has_accused_this_round := true })
                  g.players).find?
                    (fun q => decide (some q.id = g.current_turn)) = some p := hfp
              rw [find?_congr hcongr, find?_modifyFirst
                (fun (q : Player) => decide (q.id = x))
                (fun (q : Player) => { q with has_accused_this_round := true })
                (fun _ => rfl), hfind] at hfp'
              have hp : ({ accP with has_accused_this_round := true } : Player) = p := by
                injection hfp'
              rw [← hp]
  | voteOnEndOfRoundAccusation v b =>
    simp only [Action.apply]
    unfold Game.vote_on_end_of_round_accusation
    split
    · exact ⟨h1, h2, h3, h4⟩
    · rename_i hg1
      have hst : g.status = GameStatus.END_OF_ROUND_VOTING := not_not.mp hg1
      cases hacc : g.current_accusation with
      | none => exact ⟨h1, h2, h3, h4⟩
      | some acc =>
        dsimp only
        split
        · exact ⟨h1, h2, h3, h4⟩
        · split
          · exact ⟨h1, h2, h3, h4⟩
          · have hc1 : activeCount (modifyLastActive
                (fun a => { a with votes := dictInsert a.votes v b })
                g.accusations) = activeCount g.accusations :=
              activeCount_modifyLastActive
                (fun a => { a with votes := dictInsert a.votes v b })
                (fun a => rfl) g.accusations
            have hIg1 : AccusationInv { g with accusations := (modifyLastActive (fun a => { a with votes := dictInsert a.votes v b }) g.accusations) } := by
              refine ⟨Nat.le_trans (le_of_eq hc1) h1,
                fun hw => absurd (hw.symm.trans hst) (by decide),
                fun hip => absurd (hip.symm.trans hst) (by decide),
                fun hE h1le p hfp => ?_⟩
              have h1le' : 1 ≤ activeCount (modifyLastActive
                  (fun a => { a with votes := dictInsert a.votes v b })
                  g.accusations) := h1le
              rw [hc1] at h1le'
              exact h4 hst h1le' p hfp
            split
            · exact accInv_resolveEnd _ hst hIg1
            · exact hIg1

attribute [local semireducible] Rat.add Rat.sub

theorem accInv_trace : ∀ (acts : List Action) (g : Game),
    AccusationInv g → acts.all (fun a => !a.isRemovePlayer) = true →
    AccusationInv (runActions g acts)
  | [], _, h, _ => h
  | a :: acts, g, h, hall => by
    rw [List.all_cons, Bool.and_eq_true] at hall
    exact accInv_trace acts _
      (accInv_step g a h (by simpa using hall.1)) hall.2

theorem strongTurnInv_trace : ∀ (acts : List Action) (g : Game),
    NonemptyIdInv g → StrongTurnInv g → wfTrace g acts = true →
    NonemptyIdInv (runActions g acts) ∧ StrongTurnInv (runActions g acts)
  | [], _, hI, h, _ => ⟨hI, h⟩
  | a :: acts, g, hI, h, hwf => by
    rw [wfTrace, Bool.and_eq_true] at hwf
    exact strongTurnInv_trace acts _ (nonemptyIdInv_step g a hI hwf.1)
      (strongTurnInv_step g a h hI.2 hwf.1) hwf.2

theorem current_eq_of_active (l : List Accusation) (h : activeCount l ≤ 1)
    (x : Accusation) (hx : x ∈ l) (hact : x.is_active = true) :
    (l.filter (fun a => a.is_active)).getLast? = some x := by
  have hxf : x ∈ l.filter (fun a => a.is_active) :=
    List.mem_filter.mpr ⟨hx, hact⟩
  have hpos : 0 < (l.filter (fun a => a.is_active)).length :=
    List.length_pos.mpr (List.ne_nil_of_mem hxf)
  have hle : (l.filter (fun a => a.is_active)).length ≤ 1 := h
  have hlen : (l.filter (fun a => a.is_active)).length = 1 := by omega
  obtain ⟨y, hy⟩ := List.length_eq_one.mp hlen
  rw [hy] at hxf ⊢
  have : x = y := by simpa using hxf
  rw [this]
  rfl

/-- Counterexample to C4 as stated: over all Game operations including
`remove_player`, two accusations can be live at once — removing the
current end-of-round accuser hands the turn to a player who has not yet
accused, who may then open a second accusation while the first is still
active. -/
theorem at_most_one_live_accusation_counterexample :
    activeCount (runActions (Game.new "G1" 0)
        removeDuringEndOfRoundTrace).accusations = 2 ∧
    ¬ activeCount (runActions (Game.new "G1" 0)
        removeDuringEndOfRoundTrace).accusations ≤ 1 := by
  constructor
  · decide
  · decide

/-- C4 (amended): over every sequence of Game operations that does not
use `remove_player`, at most one accusation in the history is live, and
`current_accusation` is either none or that unique live accusation. -/
theorem at_most_one_live_accusation (id : String) (now : ℚ)
    (acts : List Action)
    (hnr : acts.all (fun a => !a.isRemovePlayer) = true) :
    activeCount (runActions (Game.new id now) acts).accusations ≤ 1 ∧
    ∀ x ∈ (runActions (Game.new id now) acts).accusations,
      x.is_active = true →
        (runActions (Game.new id now) acts).current_accusation = some x := by
  have h := accInv_trace acts (Game.new id now)
    ⟨Nat.zero_le 1, fun _ => rfl, fun _ => rfl, fun hE => (nomatch hE)⟩ hnr
  exact ⟨h.1, fun x hx hact => current_eq_of_active _ h.1 x hx hact⟩

/-- Witness for `at_most_one_live_accusation`: the remove-free prefix of
the counterexample trace keeps a single live accusation. -/
theorem at_most_one_live_accusation_witness :
    activeCount (runActions (Game.new "G1" 0)
        [Action.addPlayer pA, Action.addPlayer pB, Action.addPlayer pC,
         Action.startGame false [] 0 0 [] [] 1,
         Action.checkTimeExpired 482,
         Action.makeEndOfRoundAccusation "A" "B" 483]).accusations ≤ 1 :=
  (at_most_one_live_accusation "G1" 0
    [Action.addPlayer pA, Action.addPlayer pB, Action.addPlayer pC,
     Action.startGame false [] 0 0 [] [] 1,
     Action.checkTimeExpired 482,
     Action.makeEndOfRoundAccusation "A" "B" 483] (by decide)).1

/-- Counterexample to C7 as stated: `ask_question` does not validate its
target, so a question aimed at the id "ghost" (not a player) makes
`current_turn` a non-player while the roster is non-empty. -/
theorem current_turn_ghost_counterexample :
    ¬ TurnInv (runActions (Game.new "G1" 0) ghostTargetTrace) ∧
    (runActions (Game.new "G1" 0) ghostTargetTrace).current_turn =
      some "ghost" ∧
    (runActions (Game.new "G1" 0) ghostTargetTrace).players ≠ [] := by
  refine ⟨fun h => ?_, by decide, by decide⟩
  obtain ⟨p, hp, hid⟩ := h (by decide) "ghost" (by decide)
  have hall : ∀ q ∈ (runActions (Game.new "G1" 0) ghostTargetTrace).players,
      q.id ≠ "ghost" := by decide
  exact hall p hp hid

/-- C7 (amended): after every sequence of Game operations in which each
question's target is an actual player and each joining player has a
non-empty id (`_advance_turn` treats the empty string like an unset
turn), `current_turn` (when set, with a non-empty roster) is the id of a
player currently in `players`. -/
theorem current_turn_names_player (id : String) (now : ℚ)
    (acts : List Action) (hwf : wfTrace (Game.new id now) acts = true) :
    TurnInv (runActions (Game.new id now) acts) :=
  (strongTurnInv_trace acts (Game.new id now)
    ⟨fun p hp => (nomatch hp), fun hcc => (nomatch hcc)⟩
    ⟨fun _ => rfl, fun _ t ht => (nomatch ht)⟩ hwf).2.2

/-- Witness for `current_turn_names_player`: a started game with one
well-targeted question keeps the turn on a real player. -/
theorem current_turn_names_player_witness :
    TurnInv (runActions (Game.new "G1" 0)
      [Action.addPlayer pA, Action.addPlayer pB, Action.addPlayer pC,
       Action.startGame false [] 0 0 [] [] 1,
       Action.askQuestion "A" "B" "q" 2]) ∧
    (runActions (Game.new "G1" 0)
      [Action.addPlayer pA, Action.addPlayer pB, Action.addPlayer pC,
       Action.startGame false [] 0 0 [] [] 1,
       Action.askQuestion "A" "B" "q" 2]).current_turn = some "B" :=
  ⟨current_turn_names_player "G1" 0
    [Action.addPlayer pA, Action.addPlayer pB, Action.addPlayer pC,
     Action.startGame false [] 0 0 [] [] 1,
     Action.askQuestion "A" "B" "q" 2] (by decide), by decide⟩

end Spyfall
